import Mathlib

/-!
Verification of the PDF inspection-extraction pipeline of the
Backend-Main repository.

The development shallowly embeds the Python sources
`checklists/ai_schemas.py` (pydantic result schema and validator) and
`checklists/utils.py` (heuristic extraction chain, document-type
classifier, and PDF-processing entry points) as executable Lean
definitions over `List Char` strings, and proves or refutes the frozen
claims about them.

Modelling conventions:
* Python strings are `List Char`; `strL` converts a Lean string literal.
* Python `None`-able values are `Option`; a raised exception is
  `Except.error`.
* Machine floats that only ever hold decimal literals and are only
  compared (the confidence scores) are modelled as `Rat`.
* Each regular expression of the source is embedded as a dedicated
  scanning function whose semantics follows Python `re` (leftmost,
  non-overlapping matches, greedy quantifiers with the backtracking the
  concrete pattern allows); the scanner for each pattern is documented
  next to its definition.
-/

/-! ### String utilities (Python string semantics) -/

/-- Characters of a string literal. -/
def strL (s : String) : List Char := s.data

/-- Python `str.isspace` / regex `\s` class membership (ASCII). -/
def isWsB (c : Char) : Bool :=
  c = ' ' || c = '\t' || c = '\n' || c = '\r' || c = '\x0b' || c = '\x0c'

/-- Regex `\d` class membership (ASCII). -/
def isDigitB (c : Char) : Bool := '0' ≤ c && c ≤ '9'

/-- ASCII letter test (regex `[A-Za-z]`, also `[A-Z]` under `re.IGNORECASE`). -/
def isAlphaB (c : Char) : Bool :=
  ('a' ≤ c && c ≤ 'z') || ('A' ≤ c && c ≤ 'Z')

/-- Regex `\w` class membership (ASCII). -/
def isWordB (c : Char) : Bool := isAlphaB c || isDigitB c || c = '_'

/-- Python `str.lower` (ASCII). -/
def pyLower (cs : List Char) : List Char := cs.map Char.toLower

/-- Drop a maximal all-whitespace suffix (the right half of `str.strip`).
Structurally recursive for easy induction. -/
def dropTrailWs : List Char → List Char
  | [] => []
  | c :: cs =>
    match dropTrailWs cs with
    | [] => if isWsB c then [] else [c]
    | r => c :: r

/-- Python `str.strip()`. -/
def pyStrip (cs : List Char) : List Char := dropTrailWs (cs.dropWhile isWsB)

/-- Python `str.title()`: each maximal run of letters is capitalised at
its first character, the rest lowercased; other characters separate
words.  The boolean argument records whether the previous character was
a letter. -/
def pyTitleAux : Bool → List Char → List Char
  | _, [] => []
  | prevAlpha, c :: cs =>
    if isAlphaB c then
      (if prevAlpha then c.toLower else c.toUpper) :: pyTitleAux true cs
    else
      c :: pyTitleAux false cs

/-- Python `str.title()`. -/
def pyTitle (cs : List Char) : List Char := pyTitleAux false cs

/-- Case-insensitive prefix test; the pattern is supplied lowercased. -/
def startsWithCI : List Char → List Char → Bool
  | [], _ => true
  | _ :: _, [] => false
  | p :: ps, c :: cs => (c.toLower = p) && startsWithCI ps cs

/-- Case-insensitive substring test (Python `pat.lower() in s.lower()` /
`re.search` of a literal pattern with `re.IGNORECASE`). -/
def containsCI (pat : List Char) : List Char → Bool
  | [] => pat.isEmpty
  | c :: cs => startsWithCI pat (c :: cs) || containsCI pat cs

/-- Count of non-overlapping case-insensitive occurrences of a literal
pattern, as `re.findall(pat, s, re.IGNORECASE)` / `str.count` compute it:
scan left to right, on a match skip the whole pattern. -/
def countOccCIAux (pat : List Char) : Nat → List Char → Nat
  | 0, _ => 0
  | _ + 1, [] => 0
  | fuel + 1, c :: cs =>
    if startsWithCI pat (c :: cs) then
      1 + countOccCIAux pat fuel (List.drop (pat.length - 1) cs)
    else
      countOccCIAux pat fuel cs

def countOccCI (pat cs : List Char) : Nat := countOccCIAux pat cs.length cs

/-- Maximal run satisfying `p` together with the remainder (`List.span`). -/
def spanB (p : Char → Bool) (cs : List Char) : List Char × List Char :=
  (cs.takeWhile p, cs.dropWhile p)

/-- Python `str.split('\n')`. -/
def splitLinesAux : List Char → List Char → List (List Char)
  | acc, [] => [acc.reverse]
  | acc, c :: cs =>
    if c = '\n' then acc.reverse :: splitLinesAux [] cs
    else splitLinesAux (c :: acc) cs

def splitLines (cs : List Char) : List (List Char) := splitLinesAux [] cs

/-- Digit characters to the natural number they denote (Python `int`). -/
def digitsToNat (cs : List Char) : Nat :=
  cs.foldl (fun n c => 10 * n + (c.toNat - '0'.toNat)) 0

/-- `mapM` for `Except`, written recursively so that proofs can invert
it (pydantic validating each list element in order, failing fast). -/
def mapMExcept {α β ε : Type} (f : α → Except ε β) : List α → Except ε (List β)
  | [] => .ok []
  | a :: as =>
    match f a with
    | .error e => .error e
    | .ok b =>
      match mapMExcept f as with
      | .error e => .error e
      | .ok bs => .ok (b :: bs)

/-! #### Lemmas about the string utilities -/

theorem dropTrailWs_cons (c : Char) (cs : List Char) :
    dropTrailWs (c :: cs) =
      match dropTrailWs cs with
      | [] => if isWsB c then [] else [c]
      | r => c :: r := rfl

theorem dropWhile_dropWhile_self (p : Char → Bool) (l : List Char) :
    (l.dropWhile p).dropWhile p = l.dropWhile p := by
  induction l with
  | nil => rfl
  | cons c cs ih =>
    by_cases h : p c
    · simp [List.dropWhile, h, ih]
    · simp [List.dropWhile, h]

theorem dropTrailWs_eq_nil_iff (l : List Char) :
    dropTrailWs l = [] ↔ l.all isWsB := by
  induction l with
  | nil => simp [dropTrailWs]
  | cons c cs ih =>
    rw [dropTrailWs_cons, List.all_cons]
    cases hcs : dropTrailWs cs with
    | nil =>
      rw [hcs] at ih
      have hall : cs.all isWsB = true := ih.mp rfl
      by_cases h : isWsB c <;> simp [h, hall]
    | cons x xs =>
      rw [hcs] at ih
      constructor
      · intro h; exact absurd h (by simp)
      · intro h
        have h2 : cs.all isWsB = true := (Bool.and_eq_true _ _ |>.mp h).2
        exact absurd (ih.mpr h2) (by simp)

theorem dropTrailWs_idem (l : List Char) :
    dropTrailWs (dropTrailWs l) = dropTrailWs l := by
  induction l with
  | nil => rfl
  | cons c cs ih =>
    cases hcs : dropTrailWs cs with
    | nil =>
      by_cases h : isWsB c
      · rw [dropTrailWs_cons, hcs]; simp [h, dropTrailWs]
      · rw [dropTrailWs_cons, hcs]; simp [h, dropTrailWs]
    | cons x xs =>
      rw [hcs] at ih
      rw [dropTrailWs_cons, hcs]
      show dropTrailWs (c :: x :: xs) = c :: x :: xs
      rw [dropTrailWs_cons, ih]

theorem dropWhile_dropTrailWs_comm (l : List Char) :
    (dropTrailWs l).dropWhile isWsB = dropTrailWs (l.dropWhile isWsB) := by
  induction l with
  | nil => rfl
  | cons c cs ih =>
    by_cases h : isWsB c
    · rw [dropTrailWs_cons]
      cases hcs : dropTrailWs cs with
      | nil =>
        have hall : cs.all isWsB = true := (dropTrailWs_eq_nil_iff cs).mp hcs
        have hdw : cs.dropWhile isWsB = [] := by
          rw [List.dropWhile_eq_nil_iff]
          intro x hx
          exact List.all_eq_true.mp hall x hx
        simp [h, hdw, List.dropWhile, dropTrailWs]
      | cons x xs =>
        rw [hcs] at ih
        have : (c :: cs).dropWhile isWsB = cs.dropWhile isWsB := by
          simp [List.dropWhile, h]
        rw [this, ← ih]
        simp [List.dropWhile, h]
    · have hdw : (c :: cs).dropWhile isWsB = c :: cs := by
        simp [List.dropWhile, h]
      rw [hdw]
      rw [dropTrailWs_cons]
      cases hcs : dropTrailWs cs with
      | nil => simp [h, List.dropWhile, dropTrailWs_cons, hcs]
      | cons x xs => simp [h, List.dropWhile, dropTrailWs_cons, hcs]

theorem pyStrip_idem (l : List Char) : pyStrip (pyStrip l) = pyStrip l := by
  unfold pyStrip
  rw [dropWhile_dropTrailWs_comm, dropWhile_dropWhile_self, dropTrailWs_idem]

theorem dropTrailWs_length_le (l : List Char) :
    (dropTrailWs l).length ≤ l.length := by
  induction l with
  | nil => simp [dropTrailWs]
  | cons c cs ih =>
    rw [dropTrailWs_cons]
    cases hcs : dropTrailWs cs with
    | nil =>
      by_cases h : isWsB c <;> simp [h]
    | cons x xs =>
      rw [hcs] at ih
      simpa using Nat.succ_le_succ ih

theorem dropWhile_length_le (p : Char → Bool) (l : List Char) :
    (l.dropWhile p).length ≤ l.length := by
  induction l with
  | nil => simp
  | cons c cs ih =>
    by_cases h : p c
    · simp only [List.dropWhile, h]
      exact le_trans ih (by simp)
    · simp [List.dropWhile, h]

theorem pyStrip_length_le (l : List Char) : (pyStrip l).length ≤ l.length :=
  le_trans (dropTrailWs_length_le _) (dropWhile_length_le isWsB l)

theorem countOccCIAux_eq_zero_of_not_contains (pat : List Char) :
    ∀ fuel l, containsCI pat l = false → countOccCIAux pat fuel l = 0 := by
  intro fuel
  induction fuel with
  | zero => intro l _; cases l <;> rfl
  | succ n ih =>
    intro l hc
    cases l with
    | nil => rfl
    | cons c cs =>
      simp only [containsCI, Bool.or_eq_false_iff] at hc
      simp only [countOccCIAux, hc.1, Bool.false_eq_true, if_false]
      exact ih cs hc.2

/-- If a literal occurs at least once (positive non-overlapping count)
then `re.search` of that literal succeeds. -/
theorem contains_of_countOccCI_pos (pat l : List Char)
    (h : 0 < countOccCI pat l) : containsCI pat l = true := by
  by_contra hc
  have : countOccCI pat l = 0 :=
    countOccCIAux_eq_zero_of_not_contains pat l.length l
      (Bool.not_eq_true _ ▸ (Bool.eq_false_iff.mpr
        (fun hcc => hc (by exact hcc))))
  omega

/-! ### Result schema and validator (`checklists/ai_schemas.py`)

The pydantic models `TaskSchema`, `SystemSchema`, `DocumentMetadata` and
`AIExtractionResult` are embedded as raw-payload structures (fields the
AI provider may omit are `Option`) together with validation functions
that follow pydantic v1 semantics: declared field constraints
(`min_length` / `max_length` / `ge` / `le`, required-ness) are checked
first on the raw value, then the `@validator` methods run in
declaration order.  Validation failure is `Except.error`; the error
text is abbreviated (claims never depend on the message). -/

deriving instance DecidableEq for Except

inductive TaskType where
  | inspection | maintenance | safety | startup | shutdown
deriving DecidableEq

inductive QualityLevel where
  | excellent | good | fair | poor
deriving DecidableEq

/-- A task as accepted by `TaskSchema` (post-validation). -/
structure TaskS where
  number : Option Int
  description : List Char
  type : TaskType
  requirements : Option (List Char)
  safety_notes : Option (List Char)
  estimated_time : Option Int
deriving DecidableEq

/-- A system as accepted by `SystemSchema` (post-validation). -/
structure SystemS where
  name : List Char
  description : Option (List Char)
  category : Option (List Char)
  location : Option (List Char)
  manufacturer : Option (List Char)
  model : Option (List Char)
  tasks : List TaskS
deriving DecidableEq

/-- `DocumentMetadata`: all fields optional, no constraints. -/
structure Metadata where
  title : Option (List Char)
  document_type : Option (List Char)
  facility : Option (List Char)
  department : Option (List Char)
  revision : Option (List Char)
  date : Option (List Char)
  author : Option (List Char)
  approval : Option (List Char)
deriving DecidableEq

/-- `AIExtractionResult` (post-validation). -/
structure AIExtractionResult where
  success : Bool
  confidence : Rat
  processing_method : List Char
  metadata : Option Metadata
  systems : List SystemS
  total_systems : Nat
  total_tasks : Nat
  processing_time : Option Rat
  extraction_quality : Option QualityLevel
  warnings : Option (List (List Char))
deriving DecidableEq

/-- Raw task payload handed to `TaskSchema`. -/
structure RawTask where
  number : Option Int
  description : Option (List Char)
  type : Option TaskType
  requirements : Option (List Char)
  safety_notes : Option (List Char)
  estimated_time : Option Int
deriving DecidableEq

/-- Raw system payload handed to `SystemSchema`. -/
structure RawSystem where
  name : Option (List Char)
  description : Option (List Char)
  category : Option (List Char)
  location : Option (List Char)
  manufacturer : Option (List Char)
  model : Option (List Char)
  tasks : Option (List RawTask)
deriving DecidableEq

/-- Raw payload handed to `AIExtractionResult(**response_data)`. -/
structure RawResult where
  success : Option Bool
  confidence : Option Rat
  processing_method : Option (List Char)
  metadata : Option Metadata
  systems : Option (List RawSystem)
  total_systems : Option Int
  total_tasks : Option Int
  processing_time : Option Rat
  extraction_quality : Option QualityLevel
  warnings : Option (List (List Char))
deriving DecidableEq

/-- `TaskSchema` validation: `description` is required with raw length
in [10, 500] (pydantic checks `min_length` / `max_length` before custom
validators), then `validate_description` re-checks the stripped length
and stores the stripped text; `type` defaults to `inspection`. -/
def validateTask (t : RawTask) : Except String TaskS :=
  match t.description with
  | none => .error "description: field required"
  | some d =>
    if d.length < 10 then .error "description: at least 10 characters"
    else if 500 < d.length then .error "description: at most 500 characters"
    else if (pyStrip d).length < 10 then
      .error "Task description must be at least 10 characters"
    else .ok { number := t.number, description := pyStrip d,
               type := t.type.getD TaskType.inspection,
               requirements := t.requirements,
               safety_notes := t.safety_notes,
               estimated_time := t.estimated_time }

/-- `enumerate(v, 1)` renumbering used by `SystemSchema.validate_tasks`:
`task.number = i` for the i-th task (1-based), in list order. -/
def renumberFrom (n : Int) : List TaskS → List TaskS
  | [] => []
  | t :: ts => { t with number := some n } :: renumberFrom (n + 1) ts

/-- `SystemSchema` validation: `name` required with raw length in
[3, 200], stored stripped (`validate_name`); `tasks` required, each task
validated, then `validate_tasks` rejects an empty list and renumbers
1..N in list order. -/
def validateSystem (s : RawSystem) : Except String SystemS :=
  match s.name with
  | none => .error "name: field required"
  | some n =>
    if n.length < 3 then .error "name: at least 3 characters"
    else if 200 < n.length then .error "name: at most 200 characters"
    else
      match s.tasks with
      | none => .error "tasks: field required"
      | some rts =>
        match mapMExcept validateTask rts with
        | .error e => .error e
        | .ok ts =>
          if ts.isEmpty then .error "System must have at least one task"
          else .ok { name := pyStrip n,
                     description := s.description,
                     category := s.category,
                     location := s.location,
                     manufacturer := s.manufacturer,
                     model := s.model,
                     tasks := renumberFrom 1 ts }

/-- `AIExtractionResult(**response_data)`: fields validated in
declaration order; `confidence` is required with `ge=0.0, le=1.0`
(out-of-range values are rejected, not clamped); `systems` must be
non-empty; `total_systems` / `total_tasks` are required to be present
but their values are overwritten by the `always=True` validators with
the derived counts. -/
def pydantic_validate (r : RawResult) : Except String AIExtractionResult :=
  match r.success with
  | none => .error "success: field required"
  | some sc =>
    match r.confidence with
    | none => .error "confidence: field required"
    | some cf =>
      if cf < 0 then .error "confidence: greater than or equal to 0.0"
      else if 1 < cf then .error "confidence: less than or equal to 1.0"
      else
        match r.processing_method with
        | none => .error "processing_method: field required"
        | some pm =>
          match r.systems with
          | none => .error "systems: field required"
          | some rss =>
            match mapMExcept validateSystem rss with
            | .error e => .error e
            | .ok ss =>
              if ss.isEmpty then .error "At least one system must be extracted"
              else
                match r.total_systems with
                | none => .error "total_systems: field required"
                | some _ =>
                  match r.total_tasks with
                  | none => .error "total_tasks: field required"
                  | some _ =>
                    .ok { success := sc, confidence := cf,
                          processing_method := pm,
                          metadata := r.metadata, systems := ss,
                          total_systems := ss.length,
                          total_tasks := (ss.map (fun s => s.tasks.length)).sum,
                          processing_time := r.processing_time,
                          extraction_quality := r.extraction_quality,
                          warnings := r.warnings }

/-- `validate_ai_response(response_data)`:
`(is_valid, error_message, parsed_result)`. -/
def validate_ai_response (r : RawResult) :
    Bool × String × Option AIExtractionResult :=
  match pydantic_validate r with
  | .ok res => (true, "Valid", some res)
  | .error e => (false, "Schema validation error: " ++ e, none)

/-- `create_fallback_result(error_message)`: the guaranteed-valid
fallback with one synthetic system and three generic tasks. -/
def create_fallback_result (error_message : List Char) : AIExtractionResult :=
  { success := false, confidence := 0,
    processing_method := strL "fallback",
    metadata := none,
    systems := [
      { name := strL "General Inspection Checklist",
        description := some (strL "Fallback system created due to processing error"),
        category := some (strL "general"),
        location := none, manufacturer := none, model := none,
        tasks := [
          { number := some 1,
            description := strL "Visual inspection of equipment condition",
            type := TaskType.inspection, requirements := none,
            safety_notes := none, estimated_time := none },
          { number := some 2,
            description := strL "Check for any visible damage or wear",
            type := TaskType.inspection, requirements := none,
            safety_notes := none, estimated_time := none },
          { number := some 3,
            description := strL "Verify proper operation",
            type := TaskType.inspection, requirements := none,
            safety_notes := none, estimated_time := none }]}],
    total_systems := 1, total_tasks := 3,
    processing_time := none,
    extraction_quality := some QualityLevel.poor,
    warnings := some [strL "AI processing failed: " ++ error_message] }

/-- A validated task written back to raw payload form (its `.dict()`
representation, as handed to a second `validate_ai_response` run). -/
def taskToRaw (t : TaskS) : RawTask :=
  { number := t.number, description := some t.description,
    type := some t.type, requirements := t.requirements,
    safety_notes := t.safety_notes, estimated_time := t.estimated_time }

/-- A validated system written back to raw payload form. -/
def sysToRaw (s : SystemS) : RawSystem :=
  { name := some s.name, description := s.description,
    category := s.category, location := s.location,
    manufacturer := s.manufacturer, model := s.model,
    tasks := some (s.tasks.map taskToRaw) }

/-- A validated result written back to raw payload form. -/
def result_to_raw (r : AIExtractionResult) : RawResult :=
  { success := some r.success, confidence := some r.confidence,
    processing_method := some r.processing_method,
    metadata := r.metadata,
    systems := some (r.systems.map sysToRaw),
    total_systems := some (r.total_systems : Int),
    total_tasks := some (r.total_tasks : Int),
    processing_time := r.processing_time,
    extraction_quality := r.extraction_quality,
    warnings := r.warnings }

/-! #### Validator inversion lemmas -/

theorem mapMExcept_ok_mem {α β ε : Type} (f : α → Except ε β) :
    ∀ (l : List α) (bs : List β), mapMExcept f l = .ok bs →
      ∀ b ∈ bs, ∃ a ∈ l, f a = .ok b := by
  intro l
  induction l with
  | nil =>
    intro bs h b hb
    simp only [mapMExcept] at h
    cases h
    simp at hb
  | cons a as ih =>
    intro bs h b hb
    simp only [mapMExcept] at h
    cases hfa : f a with
    | error e => rw [hfa] at h; simp at h
    | ok b0 =>
      rw [hfa] at h
      cases hrec : mapMExcept f as with
      | error e => rw [hrec] at h; simp at h
      | ok bs0 =>
        rw [hrec] at h
        cases h
        rcases List.mem_cons.mp hb with h1 | h2
        · exact ⟨a, List.mem_cons_self a as, h1 ▸ hfa⟩
        · rcases ih bs0 hrec b h2 with ⟨a2, ha2, hfa2⟩
          exact ⟨a2, List.mem_cons_of_mem a ha2, hfa2⟩

theorem mapMExcept_ok_length {α β ε : Type} (f : α → Except ε β) :
    ∀ (l : List α) (bs : List β), mapMExcept f l = .ok bs →
      bs.length = l.length := by
  intro l
  induction l with
  | nil =>
    intro bs h
    simp only [mapMExcept] at h
    cases h; rfl
  | cons a as ih =>
    intro bs h
    simp only [mapMExcept] at h
    cases hfa : f a with
    | error e => rw [hfa] at h; simp at h
    | ok b0 =>
      rw [hfa] at h
      cases hrec : mapMExcept f as with
      | error e => rw [hrec] at h; simp at h
      | ok bs0 =>
        rw [hrec] at h
        cases h
        simp [ih bs0 hrec]

theorem mapMExcept_ok_of_forall_ok {α β ε : Type} (f : α → Except ε β) :
    ∀ (l : List α), (∀ a ∈ l, (f a).isOk = true) →
      ∃ bs, mapMExcept f l = .ok bs := by
  intro l
  induction l with
  | nil => exact fun _ => ⟨[], rfl⟩
  | cons a as ih =>
    intro h
    have ha := h a (List.mem_cons_self a as)
    cases hfa : f a with
    | error e => rw [hfa] at ha; simp [Except.isOk, Except.toBool] at ha
    | ok b =>
      rcases ih (fun x hx => h x (List.mem_cons_of_mem a hx)) with ⟨bs, hbs⟩
      exact ⟨b :: bs, by simp only [mapMExcept, hfa, hbs]⟩

theorem mapMExcept_forall_ok_of_ok {α β ε : Type} (f : α → Except ε β) :
    ∀ (l : List α) (bs : List β), mapMExcept f l = .ok bs →
      ∀ a ∈ l, (f a).isOk = true := by
  intro l
  induction l with
  | nil => intro bs _ a ha; simp at ha
  | cons x xs ih =>
    intro bs h a ha
    simp only [mapMExcept] at h
    cases hfa : f x with
    | error e => rw [hfa] at h; simp at h
    | ok b0 =>
      rw [hfa] at h
      cases hrec : mapMExcept f xs with
      | error e => rw [hrec] at h; simp at h
      | ok bs0 =>
        rcases List.mem_cons.mp ha with h1 | h2
        · rw [h1, hfa]; rfl
        · exact ih bs0 hrec a h2

theorem mapMExcept_map_ok {α β ε : Type} (f : β → Except ε α) (g : α → β) :
    ∀ (l : List α), (∀ a ∈ l, f (g a) = .ok a) →
      mapMExcept f (l.map g) = .ok l := by
  intro l
  induction l with
  | nil => intro _; rfl
  | cons a as ih =>
    intro h
    have ha := h a (List.mem_cons_self a as)
    have hrec := ih (fun x hx => h x (List.mem_cons_of_mem a hx))
    simp only [List.map_cons, mapMExcept, ha, hrec]

theorem validateTask_ok_inv (rt : RawTask) (t : TaskS)
    (h : validateTask rt = .ok t) :
    ∃ d, rt.description = some d ∧ 10 ≤ d.length ∧ d.length ≤ 500 ∧
      10 ≤ (pyStrip d).length ∧
      t = { number := rt.number, description := pyStrip d,
            type := rt.type.getD TaskType.inspection,
            requirements := rt.requirements,
            safety_notes := rt.safety_notes,
            estimated_time := rt.estimated_time } := by
  unfold validateTask at h
  cases hd : rt.description with
  | none => rw [hd] at h; simp at h
  | some d =>
    rw [hd] at h
    by_cases h1 : d.length < 10
    · simp [h1] at h
    · by_cases h2 : 500 < d.length
      · simp [h1, h2] at h
      · by_cases h3 : (pyStrip d).length < 10
        · simp [h1, h2, h3] at h
        · simp only [h1, h2, h3, if_false] at h
          cases h
          exact ⟨d, rfl, by omega, by omega, by omega, rfl⟩

theorem validateSystem_ok_inv (rs : RawSystem) (s : SystemS)
    (h : validateSystem rs = .ok s) :
    ∃ n rts ts, rs.name = some n ∧ 3 ≤ n.length ∧ n.length ≤ 200 ∧
      rs.tasks = some rts ∧ mapMExcept validateTask rts = .ok ts ∧
      ts ≠ [] ∧
      s = { name := pyStrip n, description := rs.description,
            category := rs.category, location := rs.location,
            manufacturer := rs.manufacturer, model := rs.model,
            tasks := renumberFrom 1 ts } := by
  unfold validateSystem at h
  split at h
  · simp at h
  rename_i n hn
  split at h
  · simp at h
  split at h
  · simp at h
  rename_i h1 h2
  split at h
  · simp at h
  rename_i rts ht
  split at h
  · simp at h
  rename_i ts hm
  split at h
  · simp at h
  rename_i h3
  cases h
  exact ⟨n, rts, ts, hn, by omega, by omega, ht, hm,
    by simpa [List.isEmpty_iff] using h3, rfl⟩

theorem pydantic_validate_ok_inv (raw : RawResult) (res : AIExtractionResult)
    (h : pydantic_validate raw = .ok res) :
    ∃ sc cf pm rss ss,
      raw.success = some sc ∧ raw.confidence = some cf ∧
      (0 : Rat) ≤ cf ∧ cf ≤ 1 ∧
      raw.processing_method = some pm ∧ raw.systems = some rss ∧
      mapMExcept validateSystem rss = .ok ss ∧ ss ≠ [] ∧
      raw.total_systems ≠ none ∧ raw.total_tasks ≠ none ∧
      res = { success := sc, confidence := cf, processing_method := pm,
              metadata := raw.metadata, systems := ss,
              total_systems := ss.length,
              total_tasks := (ss.map (fun s => s.tasks.length)).sum,
              processing_time := raw.processing_time,
              extraction_quality := raw.extraction_quality,
              warnings := raw.warnings } := by
  unfold pydantic_validate at h
  split at h
  · simp at h
  rename_i sc hsc
  split at h
  · simp at h
  rename_i cf hcf
  split at h
  · simp at h
  split at h
  · simp at h
  rename_i h1 h2
  split at h
  · simp at h
  rename_i pm hpm
  split at h
  · simp at h
  rename_i rss hss
  split at h
  · simp at h
  rename_i ss hm
  split at h
  · simp at h
  rename_i h3
  split at h
  · simp at h
  rename_i tsv hts
  split at h
  · simp at h
  rename_i ttv htt
  cases h
  exact ⟨sc, cf, pm, rss, ss, hsc, hcf,
    not_lt.mp h1, not_lt.mp h2, hpm, hss, hm,
    by simpa [List.isEmpty_iff] using h3,
    by simp [hts], by simp [htt], rfl⟩

/-! #### Renumbering lemmas -/

theorem renumberFrom_length (n : Int) (l : List TaskS) :
    (renumberFrom n l).length = l.length := by
  induction l generalizing n with
  | nil => rfl
  | cons t ts ih => simp [renumberFrom, ih]

theorem renumberFrom_get (n : Int) (l : List TaskS) (i : Nat)
    (hi : i < (renumberFrom n l).length) :
    ((renumberFrom n l).get ⟨i, hi⟩).number = some (n + i) := by
  induction l generalizing n i with
  | nil => simp [renumberFrom] at hi
  | cons t ts ih =>
    cases i with
    | zero => simp [renumberFrom]
    | succ j =>
      have hj : j < (renumberFrom (n + 1) ts).length := by
        simpa [renumberFrom] using hi
      have := ih (n + 1) j hj
      simp only [renumberFrom, List.get_cons_succ]
      rw [this]
      congr 1
      omega

theorem renumberFrom_idem (n : Int) (l : List TaskS) :
    renumberFrom n (renumberFrom n l) = renumberFrom n l := by
  induction l generalizing n with
  | nil => rfl
  | cons t ts ih => simp [renumberFrom, ih]

theorem renumberFrom_mem (n : Int) (l : List TaskS) (t : TaskS)
    (h : t ∈ renumberFrom n l) :
    ∃ t0 ∈ l, ∃ m : Int, t = { t0 with number := some m } := by
  induction l generalizing n with
  | nil => simp [renumberFrom] at h
  | cons x xs ih =>
    simp only [renumberFrom, List.mem_cons] at h
    rcases h with h | h
    · exact ⟨x, List.mem_cons_self x xs, n, h⟩
    · rcases ih (n + 1) h with ⟨t0, ht0, m, hm⟩
      exact ⟨t0, List.mem_cons_of_mem x ht0, m, hm⟩

theorem renumberFrom_ne_nil (n : Int) (l : List TaskS) (h : l ≠ []) :
    renumberFrom n l ≠ [] := by
  cases l with
  | nil => exact absurd rfl h
  | cons t ts => simp [renumberFrom]

/-! ### Claim C2 — derived totals -/

/-- C2: every result accepted by `validate_ai_response` has
`total_systems == len(systems)` and
`total_tasks == sum(len(s.tasks) for s in systems)`, whatever totals the
candidate supplied (the `always=True` validators overwrite them). -/
theorem C2_derived_totals (raw : RawResult) (res : AIExtractionResult)
    (h : pydantic_validate raw = .ok res) :
    res.total_systems = res.systems.length ∧
    res.total_tasks = (res.systems.map (fun s => s.tasks.length)).sum := by
  rcases pydantic_validate_ok_inv raw res h with
    ⟨sc, cf, pm, rss, ss, -, -, -, -, -, -, -, -, -, -, hres⟩
  subst hres
  exact ⟨rfl, rfl⟩

/-! Concrete fixtures: a candidate payload with deliberately wrong
totals (99/99) and misnumbered tasks (7, 3), and its validated form. -/

def rawTaskA : RawTask :=
  { number := some 7,
    description := some (strL "Check worn or missing blades"),
    type := none, requirements := none, safety_notes := none,
    estimated_time := none }

def rawTaskB : RawTask :=
  { number := some 3,
    description := some (strL "Check scraper frames and blades"),
    type := none, requirements := none, safety_notes := none,
    estimated_time := none }

def rawSystemA : RawSystem :=
  { name := some (strL "Belt Scraper System 1"), description := none,
    category := none, location := none, manufacturer := none,
    model := none, tasks := some [rawTaskA, rawTaskB] }

def rawResultA : RawResult :=
  { success := some true, confidence := some (mkRat 1 2),
    processing_method := some (strL "gpt-4-vision"), metadata := none,
    systems := some [rawSystemA], total_systems := some 99,
    total_tasks := some 99, processing_time := none,
    extraction_quality := none, warnings := none }

def taskA : TaskS :=
  { number := some 1, description := strL "Check worn or missing blades",
    type := TaskType.inspection, requirements := none,
    safety_notes := none, estimated_time := none }

def taskB : TaskS :=
  { number := some 2, description := strL "Check scraper frames and blades",
    type := TaskType.inspection, requirements := none,
    safety_notes := none, estimated_time := none }

def systemA : SystemS :=
  { name := strL "Belt Scraper System 1", description := none,
    category := none, location := none, manufacturer := none,
    model := none, tasks := [taskA, taskB] }

def resultA : AIExtractionResult :=
  { success := true, confidence := mkRat 1 2,
    processing_method := strL "gpt-4-vision", metadata := none,
    systems := [systemA], total_systems := 1, total_tasks := 2,
    processing_time := none, extraction_quality := none, warnings := none }

/-- C2 witness: the fixture supplied totals 99/99 and validates to
derived totals 1/2. -/
theorem C2_witness :
    resultA.total_systems = resultA.systems.length ∧
    resultA.total_tasks = (resultA.systems.map (fun s => s.tasks.length)).sum :=
  C2_derived_totals rawResultA resultA (by decide)

/-! ### Claim C3 — task renumbering -/

/-- C3: in every validated result, each system's tasks are numbered
1..N contiguously in list order, whatever numbers the provider
supplied. -/
theorem C3_task_renumbering (raw : RawResult) (res : AIExtractionResult)
    (h : pydantic_validate raw = .ok res) :
    ∀ s ∈ res.systems, ∀ i (hi : i < s.tasks.length),
      (s.tasks.get ⟨i, hi⟩).number = some ((i : Int) + 1) := by
  rcases pydantic_validate_ok_inv raw res h with
    ⟨sc, cf, pm, rss, ss, -, -, -, -, -, -, hm, -, -, -, hres⟩
  subst hres
  intro s hs i hi
  rcases mapMExcept_ok_mem validateSystem rss ss hm s hs with ⟨rs, -, hval⟩
  rcases validateSystem_ok_inv rs s hval with
    ⟨n, rts, ts, -, -, -, -, -, -, hseq⟩
  subst hseq
  have := renumberFrom_get 1 ts i (by simpa using hi)
  simpa [Int.add_comm] using this

/-- C3 witness: the fixture's provider numbers were 7 and 3; after
validation the second task carries number 2. -/
theorem C3_witness :
    (systemA.tasks.get ⟨1, by decide⟩).number = some ((1 : Int) + 1) :=
  C3_task_renumbering rawResultA resultA (by decide) systemA (by decide) 1
    (by decide)

/-! ### Claim C4 — confidence handling -/

def rawResultConf17 : RawResult :=
  { rawResultA with confidence := some (mkRat 17 10) }

def rawResultConfNone : RawResult :=
  { rawResultA with confidence := none }

/-- C4 counterexample: a candidate with confidence 1.7 is rejected by
`validate_ai_response` (`is_valid = false`, no result), not clamped into
[0,1]; a candidate with no confidence is likewise rejected, not treated
as 0.0. -/
theorem C4_counterexample :
    (validate_ai_response rawResultConf17).1 = false ∧
    (validate_ai_response rawResultConf17).2.2 = none ∧
    (validate_ai_response rawResultConfNone).1 = false ∧
    (validate_ai_response rawResultConfNone).2.2 = none := by
  refine ⟨?_, ?_, ?_, ?_⟩ <;> decide

/-- C4 amended: validation never clamps: a result is accepted only if a
confidence was supplied and already lay in [0,1], and the accepted
result carries exactly the supplied confidence. -/
theorem C4_amended_confidence (raw : RawResult) (res : AIExtractionResult)
    (h : pydantic_validate raw = .ok res) :
    0 ≤ res.confidence ∧ res.confidence ≤ 1 ∧
    raw.confidence = some res.confidence := by
  rcases pydantic_validate_ok_inv raw res h with
    ⟨sc, cf, pm, rss, ss, -, hcf, h0, h1, -, -, -, -, -, -, hres⟩
  subst hres
  exact ⟨h0, h1, hcf⟩

/-- C4 witness at the valid fixture (confidence 1/2). -/
theorem C4_witness :
    0 ≤ resultA.confidence ∧ resultA.confidence ≤ 1 ∧
    rawResultA.confidence = some resultA.confidence :=
  C4_amended_confidence rawResultA resultA (by decide)

/-! ### Claim C6 — length bounds -/

def rawSystemShortName : RawSystem :=
  { rawSystemA with name := some (strL "  a ") }

/-- C6 counterexample: the system name `"  a "` has raw length 4, so it
passes the 3..200 bound and the system is accepted, although the
trimmed name has length 1 — the claim (bounds after trimming, outside
bounds rejected) is false on the code. -/
theorem C6_counterexample :
    (validateSystem rawSystemShortName).isOk = true ∧
    (pyStrip (strL "  a ")).length = 1 := by
  refine ⟨?_, ?_⟩ <;> decide

/-- C6 amended: the 3..200 (name) and 10..500 (description) bounds are
checked on the raw, untrimmed strings (pydantic field constraints run
before the strip validators); a task additionally requires the stripped
description to have length ≥ 10, and a system additionally requires a
non-empty list of valid tasks. -/
theorem C6_amended_bounds (rt : RawTask) (rs : RawSystem) :
    ((validateTask rt).isOk = true ↔
      ∃ d, rt.description = some d ∧ 10 ≤ d.length ∧ d.length ≤ 500 ∧
        10 ≤ (pyStrip d).length) ∧
    ((validateSystem rs).isOk = true ↔
      (∃ n, rs.name = some n ∧ 3 ≤ n.length ∧ n.length ≤ 200) ∧
      (∃ rts, rs.tasks = some rts ∧ rts ≠ [] ∧
        ∀ t ∈ rts, (validateTask t).isOk = true)) := by
  constructor
  · constructor
    · intro h
      cases hv : validateTask rt with
      | error e => rw [hv] at h; simp [Except.isOk, Except.toBool] at h
      | ok t =>
        rcases validateTask_ok_inv rt t hv with ⟨d, hd, h1, h2, h3, -⟩
        exact ⟨d, hd, h1, h2, h3⟩
    · rintro ⟨d, hd, h1, h2, h3⟩
      simp [validateTask, hd, not_lt.mpr h1, not_lt.mpr h2, not_lt.mpr h3,
        Except.isOk, Except.toBool]
  · constructor
    · intro h
      cases hv : validateSystem rs with
      | error e => rw [hv] at h; simp [Except.isOk, Except.toBool] at h
      | ok s =>
        rcases validateSystem_ok_inv rs s hv with
          ⟨n, rts, ts, hn, h1, h2, ht, hm, hne, -⟩
        refine ⟨⟨n, hn, h1, h2⟩, ⟨rts, ht, ?_, ?_⟩⟩
        · intro hrn
          have := mapMExcept_ok_length validateTask rts ts hm
          rw [hrn] at this
          simp at this
          exact hne this
        · exact mapMExcept_forall_ok_of_ok validateTask rts ts hm
    · rintro ⟨⟨n, hn, h1, h2⟩, ⟨rts, ht, hrne, hall⟩⟩
      rcases mapMExcept_ok_of_forall_ok validateTask rts hall with ⟨ts, hts⟩
      have hlen := mapMExcept_ok_length validateTask rts ts hts
      have htne : ts.isEmpty = false := by
        rcases List.exists_cons_of_ne_nil hrne with ⟨a, as, rfl⟩
        cases ts with
        | nil => simp at hlen
        | cons b bs => rfl
      simp [validateSystem, hn, ht, hts, htne, not_lt.mpr h1, not_lt.mpr h2,
        Except.isOk, Except.toBool]

/-! ### Claim C9 — idempotent re-validation -/

def rawSystemNameAB : RawSystem :=
  { rawSystemA with name := some (strL "  ab ") }

def rawResultAB : RawResult :=
  { rawResultA with systems := some [rawSystemNameAB] }

def systemAB : SystemS := { systemA with name := strL "ab" }

def resultAB : AIExtractionResult := { resultA with systems := [systemAB] }

/-- C9 counterexample: the candidate whose system name is `"  ab "`
(raw length 5) validates to a result whose system name is `"ab"`
(length 2); feeding that already-valid result's field data back through
`validate_ai_response` fails the `min_length=3` check, so validation is
not idempotent. -/
theorem C9_counterexample :
    pydantic_validate rawResultAB = .ok resultAB ∧
    (validate_ai_response (result_to_raw resultAB)).1 = false ∧
    (validate_ai_response (result_to_raw resultAB)).2.2 = none := by
  refine ⟨?_, ?_, ?_⟩ <;> decide

theorem validateTask_roundtrip (rt : RawTask) (t : TaskS)
    (h : validateTask rt = .ok t) (t2 : TaskS) (m : Int)
    (ht2 : t2 = { t with number := some m }) :
    validateTask (taskToRaw t2) = .ok t2 := by
  rcases validateTask_ok_inv rt t h with ⟨d, hd, h10, h500, hs10, hteq⟩
  subst ht2
  subst hteq
  have hlen2 : (pyStrip d).length ≤ 500 := le_trans (pyStrip_length_le d) h500
  have hidem : pyStrip (pyStrip d) = pyStrip d := pyStrip_idem d
  simp [validateTask, taskToRaw, hidem, not_lt.mpr hs10, not_lt.mpr hlen2]

theorem validateSystem_roundtrip (rs : RawSystem) (s : SystemS)
    (h : validateSystem rs = .ok s) (h3 : 3 ≤ s.name.length) :
    validateSystem (sysToRaw s) = .ok s := by
  rcases validateSystem_ok_inv rs s h with
    ⟨n, rts, ts, hn, hn3, hn200, ht, hm, hne, hseq⟩
  have htasks : ∀ t2 ∈ s.tasks, validateTask (taskToRaw t2) = .ok t2 := by
    intro t2 ht2
    rw [hseq] at ht2
    rcases renumberFrom_mem 1 ts t2 (by simpa using ht2) with ⟨t0, ht0, m, hm2⟩
    rcases mapMExcept_ok_mem validateTask rts ts hm t0 ht0 with ⟨rt, -, hrt⟩
    exact validateTask_roundtrip rt t0 hrt t2 m hm2
  have hmap : mapMExcept validateTask (s.tasks.map taskToRaw) = .ok s.tasks :=
    mapMExcept_map_ok validateTask taskToRaw s.tasks htasks
  have hsl : pyStrip s.name = s.name := by
    rw [hseq]; exact pyStrip_idem n
  have h200 : s.name.length ≤ 200 := by
    rw [hseq]; exact le_trans (pyStrip_length_le n) hn200
  have hren : renumberFrom 1 s.tasks = s.tasks := by
    rw [hseq]; exact renumberFrom_idem 1 ts
  have hne2 : s.tasks.isEmpty = false := by
    rw [hseq]
    rcases List.exists_cons_of_ne_nil hne with ⟨a, as, rfl⟩
    rfl
  simp [validateSystem, sysToRaw, hmap, hsl, hren, hne2, not_lt.mpr h3,
    not_lt.mpr h200]

/-- C9 amended: re-validation is the identity on every validated result
whose (already-stripped) system names still have length ≥ 3; the
counterexample shows this side condition is what can fail, and it is
the only thing that can. -/
theorem C9_amended_idempotent (raw : RawResult) (res : AIExtractionResult)
    (h : pydantic_validate raw = .ok res)
    (hn : ∀ s ∈ res.systems, 3 ≤ s.name.length) :
    pydantic_validate (result_to_raw res) = .ok res := by
  rcases pydantic_validate_ok_inv raw res h with
    ⟨sc, cf, pm, rss, ss, hsc, hcf, h0, h1, hpm, hss, hm, hnem, -, -, hres⟩
  have hsys : ∀ s ∈ res.systems, validateSystem (sysToRaw s) = .ok s := by
    intro s hs
    have hs2 : s ∈ ss := by rw [hres] at hs; exact hs
    rcases mapMExcept_ok_mem validateSystem rss ss hm s hs2 with ⟨rs, -, hrs⟩
    exact validateSystem_roundtrip rs s hrs (hn s hs)
  have hmap : mapMExcept validateSystem (res.systems.map sysToRaw) = .ok res.systems :=
    mapMExcept_map_ok validateSystem sysToRaw res.systems hsys
  subst hres
  have hnem2 : (ss : List SystemS).isEmpty = false := by
    rcases List.exists_cons_of_ne_nil hnem with ⟨a, as, rfl⟩
    rfl
  simp only [result_to_raw] at hmap ⊢
  simp [pydantic_validate, hmap, hnem2, not_lt.mpr h0, not_lt.mpr h1]

/-- C9 witness: the well-named fixture re-validates to itself. -/
theorem C9_witness :
    pydantic_validate (result_to_raw resultA) = .ok resultA :=
  C9_amended_idempotent rawResultA resultA (by decide) (by decide)

/-! ### Document-type classifier (`_detect_document_type`) -/

/-- `os.path.basename` (POSIX): the part after the last `/`. -/
def basename (path : List Char) : List Char :=
  (path.reverse.takeWhile (fun c => c ≠ '/')).reverse

/-- The `equipment_indicators` mapping, in its declared order. -/
def equipment_indicators : List (List Char × List (List Char)) :=
  [(strL "conveyor",
    [strL "belt", strL "conveyor", strL "scraper", strL "pulley", strL "roller"]),
   (strL "electrical",
    [strL "electrical", strL "motor", strL "electric", strL "control",
     strL "panel", strL "circuit"]),
   (strL "hydraulic",
    [strL "hydraulic", strL "pump", strL "fluid", strL "pressure",
     strL "valve", strL "cylinder"]),
   (strL "mechanical",
    [strL "mechanical", strL "bearing", strL "gear", strL "shaft",
     strL "coupling", strL "vibration"]),
   (strL "safety",
    [strL "safety", strL "emergency", strL "guard", strL "lockout",
     strL "loto", strL "hazard"]),
   (strL "hvac",
    [strL "hvac", strL "air", strL "ventilation", strL "cooling",
     strL "heating", strL "filter"]),
   (strL "general",
    [strL "inspection", strL "maintenance", strL "checklist",
     strL "audit", strL "service"])]

/-- Filename score of one category:
`sum(1 for keyword in keywords if keyword in filename)` — one point per
keyword *present*, not per occurrence. -/
def filenameScore (filename : List Char) (kws : List (List Char)) : Nat :=
  (kws.filter (fun kw => containsCI kw filename)).length

/-- Content score of one category:
`sum(sample_text.count(keyword) for keyword in keywords)` — occurrence
counts. -/
def contentScore (text : List Char) (kws : List (List Char)) : Nat :=
  (kws.map (fun kw => countOccCI kw text)).sum

/-- Combined score `(filename_score * 1) + (content_score * 2)`. -/
def codeScore (path sample : List Char) (kws : List (List Char)) : Nat :=
  filenameScore (pyLower (basename path)) kws * 1 +
    contentScore (pyLower sample) kws * 2

/-- `filename_scores`: the categories with a positive filename score. -/
def filenameScoresOf (path : List Char) : List (List Char × Nat) :=
  (equipment_indicators.map
    (fun ci => (ci.1, filenameScore (pyLower (basename path)) ci.2))).filter
      (fun p => 0 < p.2)

/-- `total_scores`: over the union of categories with a positive
filename or content score, `(filename_score * 1) + (content_score * 2)`
(a category missing from one dict contributes 0 via `.get(c, 0)`). -/
def totalScoresOf (path text : List Char) : List (List Char × Nat) :=
  equipment_indicators.filterMap (fun ci =>
    if 0 < filenameScore (pyLower (basename path)) ci.2 ∨
       0 < contentScore (pyLower text) ci.2 then
      some (ci.1,
        filenameScore (pyLower (basename path)) ci.2 * 1 +
          contentScore (pyLower text) ci.2 * 2)
    else none)

/-- Python `max(d.keys(), key=lambda k: d[k])` over an association list:
keeps the first entry unless a strictly larger value appears later.
The source iterates a Python `set`/dict here whose order is
hash-dependent; this embedding fixes the declared category order, and
the theorems below assume a unique maximum so that the order is
immaterial. -/
def bestPair : List (List Char × Nat) → Option (List Char × Nat)
  | [] => none
  | p :: rest =>
    match bestPair rest with
    | none => some p
    | some q => if p.2 < q.2 then some q else some p

/-- The post-`try` fallback: best filename category if any keyword
matched the filename, else `"general"`. -/
def fallbackByFilename (path : List Char) : List Char :=
  match bestPair (filenameScoresOf path) with
  | some q => q.1
  | none => strL "general"

/-- `_detect_document_type(pdf_path)`: `sample = none` models PyMuPDF
being unavailable or `fitz.open` raising inside the `try` (content
analysis skipped); `sample = some text` is the concatenation of the
first three pages' first 1000 characters. -/
def _detect_document_type (pdf_path : List Char) :
    Option (List Char) → List Char
  | some text =>
    (match bestPair (totalScoresOf pdf_path text) with
     | some p => p.1
     | none => fallbackByFilename pdf_path)
  | none => fallbackByFilename pdf_path

/-- Modelled from the claim (refinement comparison only): the score the
claim prescribes, `(keyword occurrences in filename × 1) + (keyword
occurrences in sampled text × 2)` — occurrences in both places. -/
def claimScore (path sample : List Char) (kws : List (List Char)) : Nat :=
  (kws.map (fun kw => countOccCI kw (pyLower (basename path)))).sum * 1 +
    (kws.map (fun kw => countOccCI kw (pyLower sample))).sum * 2

def conveyorKws : List (List Char) :=
  [strL "belt", strL "conveyor", strL "scraper", strL "pulley", strL "roller"]

def electricalKws : List (List Char) :=
  [strL "electrical", strL "motor", strL "electric", strL "control",
   strL "panel", strL "circuit"]

def pathC7 : List Char := strL "belt_belt_belt_belt_electrical_motor.pdf"

/-- C7 counterexample: under the claim's occurrence-based formula the
filename `"belt_belt_belt_belt_electrical_motor.pdf"` (empty content)
scores conveyor 4 > electrical 3, so the claim requires `"conveyor"`;
the code counts each filename keyword only once (presence), scores
conveyor 1 < electrical 3, and returns `"electrical"`. -/
theorem C7_counterexample :
    _detect_document_type pathC7 (some []) = strL "electrical" ∧
    claimScore pathC7 [] electricalKws < claimScore pathC7 [] conveyorKws := by
  refine ⟨?_, ?_⟩ <;> decide

/-! #### bestPair lemmas -/

theorem bestPair_eq_none_iff (l : List (List Char × Nat)) :
    bestPair l = none ↔ l = [] := by
  cases l with
  | nil => simp [bestPair]
  | cons p rest =>
    simp only [bestPair]
    cases hb : bestPair rest with
    | none => simp
    | some q =>
      by_cases h : p.2 < q.2 <;> simp [h]

theorem bestPair_mem_max (l : List (List Char × Nat)) (p : List Char × Nat)
    (h : bestPair l = some p) : p ∈ l ∧ ∀ q ∈ l, q.2 ≤ p.2 := by
  induction l generalizing p with
  | nil => simp [bestPair] at h
  | cons r rest ih =>
    simp only [bestPair] at h
    cases hb : bestPair rest with
    | none =>
      rw [hb] at h
      have h2 : some r = some p := h
      cases h2
      have hrest : rest = [] := (bestPair_eq_none_iff rest).mp hb
      subst hrest
      exact ⟨List.mem_singleton.mpr rfl, by simp⟩
    | some q =>
      rw [hb] at h
      have h2 : (if r.2 < q.2 then some q else some r) = some p := h
      rcases ih q hb with ⟨hqmem, hqmax⟩
      by_cases hlt : r.2 < q.2
      · rw [if_pos hlt] at h2
        cases h2
        refine ⟨List.mem_cons_of_mem r hqmem, ?_⟩
        intro q2 hq2
        rcases List.mem_cons.mp hq2 with h1 | h3
        · rw [h1]; omega
        · exact hqmax q2 h3
      · rw [if_neg hlt] at h2
        cases h2
        refine ⟨List.mem_cons_self _ _, ?_⟩
        intro q2 hq2
        rcases List.mem_cons.mp hq2 with h1 | h3
        · rw [h1]
        · exact le_trans (hqmax q2 h3) (by omega)

/-- C7 amended: the classifier returns the category whose
presence-based filename score plus twice the occurrence-based content
score is strictly maximal (ties are resolved by an unspecified set
order in the source, so only a unique maximum is claimed), and returns
`"general"` when every category scores zero. -/
theorem C7_amended_classifier (path sample : List Char) :
    (∀ best ∈ equipment_indicators,
      0 < codeScore path sample best.2 →
      (∀ ci ∈ equipment_indicators, ci.1 ≠ best.1 →
        codeScore path sample ci.2 < codeScore path sample best.2) →
      _detect_document_type path (some sample) = best.1) ∧
    ((∀ ci ∈ equipment_indicators, codeScore path sample ci.2 = 0) →
      _detect_document_type path (some sample) = strL "general") := by
  have hentry : ∀ ci : List Char × List (List Char),
      (if 0 < filenameScore (pyLower (basename path)) ci.2 ∨
          0 < contentScore (pyLower sample) ci.2 then
        some (ci.1,
          filenameScore (pyLower (basename path)) ci.2 * 1 +
            contentScore (pyLower sample) ci.2 * 2)
      else none) =
      (if 0 < codeScore path sample ci.2 then
        some (ci.1, codeScore path sample ci.2) else none) := by
    intro ci
    unfold codeScore
    by_cases h : 0 < filenameScore (pyLower (basename path)) ci.2 ∨
        0 < contentScore (pyLower sample) ci.2
    · rw [if_pos h, if_pos (by omega)]
    · push_neg at h
      rw [if_neg (by push_neg; exact h), if_neg (by omega)]
  have htotal : totalScoresOf path sample =
      equipment_indicators.filterMap (fun ci =>
        if 0 < codeScore path sample ci.2 then
          some (ci.1, codeScore path sample ci.2) else none) := by
    unfold totalScoresOf
    exact List.filterMap_congr (fun ci _ => hentry ci)
  constructor
  · intro best hmem hpos huniq
    show (match bestPair (totalScoresOf path sample) with
          | some p => p.1
          | none => fallbackByFilename path) = best.1
    have hbestmem : (best.1, codeScore path sample best.2) ∈
        totalScoresOf path sample := by
      rw [htotal]
      exact List.mem_filterMap.mpr ⟨best, hmem, by rw [if_pos hpos]⟩
    cases hbp : bestPair (totalScoresOf path sample) with
    | none =>
      rw [bestPair_eq_none_iff] at hbp
      rw [hbp] at hbestmem
      simp at hbestmem
    | some p =>
      show p.1 = best.1
      rcases bestPair_mem_max _ p hbp with ⟨hpmem, hpmax⟩
      rw [htotal] at hpmem
      rcases List.mem_filterMap.mp hpmem with ⟨ci, hcimem, hcif⟩
      by_cases hcpos : 0 < codeScore path sample ci.2
      · rw [if_pos hcpos] at hcif
        injection hcif with hpe
        by_cases hcieq : ci.1 = best.1
        · rw [← hpe, hcieq]
        · exfalso
          have hlt := huniq ci hcimem hcieq
          have hle := hpmax _ hbestmem
          rw [← hpe] at hle
          have hle2 : codeScore path sample best.2 ≤
              codeScore path sample ci.2 := hle
          omega
      · rw [if_neg hcpos] at hcif
        simp at hcif
  · intro hzero
    show (match bestPair (totalScoresOf path sample) with
          | some p => p.1
          | none => fallbackByFilename path) = strL "general"
    cases hbp : bestPair (totalScoresOf path sample) with
    | some p =>
      exfalso
      rcases bestPair_mem_max _ p hbp with ⟨hpmem, -⟩
      rw [htotal] at hpmem
      rcases List.mem_filterMap.mp hpmem with ⟨ci, hcimem, hcif⟩
      rw [if_neg (by rw [hzero ci hcimem]; omega)] at hcif
      simp at hcif
    | none =>
      show fallbackByFilename path = strL "general"
      unfold fallbackByFilename
      cases hbq : bestPair (filenameScoresOf path) with
      | some q =>
        exfalso
        rcases bestPair_mem_max _ q hbq with ⟨hqmem, -⟩
        unfold filenameScoresOf at hqmem
        have hqpos := (List.mem_filter.mp hqmem).2
        rcases List.mem_map.mp (List.mem_filter.mp hqmem).1 with
          ⟨ci, hcimem, hcieq⟩
        have hz := hzero ci hcimem
        unfold codeScore at hz
        rw [← hcieq] at hqpos
        simp only [decide_eq_true_eq] at hqpos
        omega
      | none => rfl

/-- C7 witness at the claim's own Scenario D: filename
`"electrical_panel_inspection.pdf"` with empty content scores
electrical 3 (electrical, electric, panel), general 1 (inspection),
all other categories 0 — unique maximum, classifier returns
`"electrical"`. -/
theorem C7_witness :
    _detect_document_type (strL "electrical_panel_inspection.pdf") (some []) =
      strL "electrical" :=
  (C7_amended_classifier (strL "electrical_panel_inspection.pdf") []).1
    (strL "electrical", electricalKws) (by decide) (by decide) (by decide)

/-! ### Legacy extraction chain (`checklists/utils.py`)

The "legacy format" is the list of dictionaries the heuristic strategies
and the AI-to-legacy converter produce: a system dict with `name`,
optional `description` and a list of task dicts.  Keys a given strategy
does not emit are modelled as `none`. -/

/-- One legacy task dict (`{"number": ..., "description": ..., ...}`). -/
structure LTask where
  number : Option Int
  description : List Char
  type : Option (List Char)
  requirements : Option (List Char)
  safety_notes : Option (List Char)
deriving DecidableEq

/-- One legacy inspection dict (`{"name": ..., "tasks": [...]}`). -/
structure Inspection where
  name : List Char
  description : Option (List Char)
  tasks : List LTask
deriving DecidableEq

/-- A legacy task carrying only `number` and `description`. -/
def mkLTask (n : Int) (d : List Char) : LTask :=
  { number := some n, description := d, type := none,
    requirements := none, safety_notes := none }

/-! #### Regex scanning infrastructure -/

/-- `re.finditer` driver: leftmost, non-overlapping matches; a matcher
returns the captured value and the remainder after the whole match (all
matchers below consume at least one character on success).  `fuel` is
the text length. -/
def scanAll {α : Type} (m : List Char → Option (α × List Char)) :
    Nat → List Char → List α
  | 0, _ => []
  | _ + 1, [] => []
  | fuel + 1, c :: cs =>
    match m (c :: cs) with
    | some (a, rest) => a :: scanAll m fuel rest
    | none => scanAll m fuel cs

/-- Helper for a pattern tail of shape `\s{minWs,}(C{lo,hi})` at the end
of a regex: the class `C` contains the non-newline whitespace characters
but not all of `\s`, so the greedy whitespace run must sometimes be
backtracked to let the group reach `lo` characters.  `wsSplitAt` tries a
fixed whitespace length `k`. -/
def wsSplitAt (inClass : Char → Bool) (lo hi : Nat) (cs : List Char)
    (k : Nat) : Option (List Char × List Char) :=
  let run := ((cs.drop k).takeWhile inClass).length
  if lo ≤ run then
    some ((cs.drop k).take (min run hi), cs.drop (k + min run hi))
  else none

def wsBacktrackGo (inClass : Char → Bool) (lo hi minWs : Nat)
    (cs : List Char) : Nat → Option (List Char × List Char)
  | 0 => if minWs = 0 then wsSplitAt inClass lo hi cs 0 else none
  | k + 1 =>
    if k + 1 < minWs then none
    else
      match wsSplitAt inClass lo hi cs (k + 1) with
      | some res => some res
      | none => wsBacktrackGo inClass lo hi minWs cs k

/-- Match `\s{minWs,}(C{lo,hi})` at the head of `cs`; returns the group
text and the remainder (greedy whitespace, longest split first). -/
def wsBacktrack (inClass : Char → Bool) (minWs lo hi : Nat)
    (cs : List Char) : Option (List Char × List Char) :=
  wsBacktrackGo inClass lo hi minWs cs (cs.takeWhile isWsB).length

/-- Class `[^|\n\r]`. -/
def notPipeNl (c : Char) : Bool := ¬ (c = '|' ∨ c = '\n' ∨ c = '\r')

/-- Class `[^.\n\r]`. -/
def notDotNl (c : Char) : Bool := ¬ (c = '.' ∨ c = '\n' ∨ c = '\r')

/-- Class `.` (anything but a newline; no DOTALL anywhere in the source). -/
def notNl (c : Char) : Bool := ¬ (c = '\n')

/-! #### Strategy 0 — `extract_custom_user_systems` -/

/-- Matcher for `r'Belt Scraper system (\d+)-Inspection Checklist'`
(IGNORECASE): literal, one-or-more digits (captured), literal. -/
def matchBeltTitle1 (cs : List Char) : Option (List Char × List Char) :=
  if startsWithCI (strL "belt scraper system ") cs then
    let rest := cs.drop 20
    let ds := rest.takeWhile isDigitB
    if ds.isEmpty then none
    else
      let rest2 := rest.drop ds.length
      if startsWithCI (strL "-inspection checklist") rest2 then
        some (ds, rest2.drop 21)
      else none
  else none

def beltTitle1Matches (t : List Char) : List (List Char) :=
  scanAll matchBeltTitle1 t.length t

/-- Matcher for task pattern `r'(\d+)\s+(Check\s+[^|\n\r]+)'`
(IGNORECASE).  Captures the number and the full second group (verbatim,
original case). -/
def matchCustomTask1 (cs : List Char) :
    Option ((Nat × List Char) × List Char) :=
  let ds := cs.takeWhile isDigitB
  if ds.isEmpty then none
  else
    let r1 := cs.drop ds.length
    let w1 := r1.takeWhile isWsB
    if w1.isEmpty then none
    else
      let r2 := r1.drop w1.length
      if startsWithCI (strL "check") r2 then
        let r3 := r2.drop 5
        match wsBacktrack notPipeNl 1 1 r3.length r3 with
        | some (_, rest) =>
          let glen := 5 + (r3.length - rest.length)
          some ((digitsToNat ds, r2.take glen), rest)
        | none => none
      else none

/-- Matcher for task pattern `r'(\d+)\s+([A-Z][^|\n\r]+)'` (IGNORECASE —
so `[A-Z]` matches any ASCII letter). -/
def matchCustomTask2 (cs : List Char) :
    Option ((Nat × List Char) × List Char) :=
  let ds := cs.takeWhile isDigitB
  if ds.isEmpty then none
  else
    let r1 := cs.drop ds.length
    let w1 := r1.takeWhile isWsB
    if w1.isEmpty then none
    else
      let r2 := r1.drop w1.length
      match r2 with
      | [] => none
      | a :: r3 =>
        if isAlphaB a then
          let body := r3.takeWhile notPipeNl
          if body.isEmpty then none
          else some ((digitsToNat ds, a :: body), r3.drop body.length)
        else none

/-- The harvest loop over one pattern's matches (utils.py 281-302):
strip the description (the `re.sub(r'[|]+.*$', ...)` is the identity
because the captured groups cannot contain `|`), keep it when it is
long enough, numbered ≤ 10, unseen (case-insensitive) and contains
"check"; stop scanning this pattern once 7 tasks are collected. -/
def harvestLoop :
    List (Nat × List Char) → List (Nat × List Char) × List (List Char) →
      List (Nat × List Char) × List (List Char)
  | [], st => st
  | (num, raw) :: ms, (ex, seen) =>
    let desc := pyStrip raw
    if 10 < desc.length ∧ num ≤ 10 ∧ ¬ (pyLower desc ∈ seen) ∧
       containsCI (strL "check") desc then
      let ex2 := ex ++ [(num, desc)]
      let seen2 := seen ++ [pyLower desc]
      if 7 ≤ ex2.length then (ex2, seen2)
      else harvestLoop ms (ex2, seen2)
    else harvestLoop ms (ex, seen)

/-- Both task patterns in order, sharing the dedup state. -/
def extractedTasksOf (t : List Char) : List (Nat × List Char) :=
  (harvestLoop (scanAll matchCustomTask2 t.length t)
    (harvestLoop (scanAll matchCustomTask1 t.length t) ([], []))).1

/-- Stable ascending insertion by task number (`list.sort(key=...)`). -/
def insertByNum (x : Nat × List Char) :
    List (Nat × List Char) → List (Nat × List Char)
  | [] => [x]
  | y :: ys => if y.1 ≤ x.1 then y :: insertByNum x ys else x :: y :: ys

def sortByNum (l : List (Nat × List Char)) : List (Nat × List Char) :=
  l.foldl (fun acc x => insertByNum x acc) []

/-- The hand-curated seed tasks (`standard_tasks`). -/
def standard_tasks : List (List Char) :=
  [strL "Check worn or missing blades",
   strL "Check scraper frames and blades",
   strL "Check adjustment of belt cleaner tension",
   strL "Check primary scarper",
   strL "Check secondary scraper",
   strL "Check tertiary scraper",
   strL "Check plough scraper"]

/-- `final_tasks`: the extracted tasks (sorted by number, first 7,
renumbered 1..) when any were harvested, else the 7 seed tasks. -/
def finalTasksOf (t : List Char) : List LTask :=
  let ex := extractedTasksOf t
  if ex.isEmpty then
    standard_tasks.enum.map (fun p => mkLTask ((p.1 : Int) + 1) p.2)
  else
    ((sortByNum ex).take 7).enum.map
      (fun p => mkLTask ((p.1 : Int) + 1) p.2.2)

/-- The title loop: one system per matched number, deduplicated by
title, each with (at most) the first 7 final tasks. -/
def customLoop (ft : List LTask) :
    List (List Char) → List (List Char) → List Inspection
  | [], _ => []
  | numStr :: ms, seen =>
    let title := strL "Belt Scraper system " ++ numStr ++
      strL "-Inspection Checklist"
    if title ∈ seen then customLoop ft ms seen
    else
      { name := title, description := none, tasks := ft.take 7 } ::
        customLoop ft ms (seen ++ [title])

/-- The phrase scanned for in the general branch (lowercased for the
case-insensitive literal search). -/
def bciPhrase : List Char := strL "belt conveyor inspection"

/-- `extract_custom_user_systems(text)`. -/
def extract_custom_user_systems (t : List Char) : List Inspection :=
  let final_tasks := finalTasksOf t
  let insp := customLoop final_tasks (beltTitle1Matches t) []
  if insp.isEmpty then
    if containsCI bciPhrase t then
      let conveyor_count := countOccCI bciPhrase t
      let system_count := min (max 1 conveyor_count) 10
      (List.range' 1 system_count).map (fun i =>
        { name := strL "Belt Scraper system " ++ Nat.toDigits 10 i ++
            strL "-Inspection Checklist",
          description := none, tasks := final_tasks.take 7 })
    else []
  else insp

/-! #### Strategy 1 — `extract_belt_scraper_systems` -/

/-- Matcher for `r'Belt Scraper system (\d+)\s*-?\s*Inspection Checklist'`
(IGNORECASE). -/
def matchBeltTitle2 (cs : List Char) : Option (List Char × List Char) :=
  if startsWithCI (strL "belt scraper system ") cs then
    let rest := cs.drop 20
    let ds := rest.takeWhile isDigitB
    if ds.isEmpty then none
    else
      let r1 := rest.drop ds.length
      let r2 := r1.dropWhile isWsB
      let r3 := if r2.head? = some '-' then r2.drop 1 else r2
      let r4 := r3.dropWhile isWsB
      if startsWithCI (strL "inspection checklist") r4 then
        some (ds, r4.drop 20)
      else none
  else none

def beltTitle2Matches (t : List Char) : List (List Char) :=
  scanAll matchBeltTitle2 t.length t

/-- The `actual_tasks` seed list of strategy 1. -/
def actual_tasks : List (List Char) := standard_tasks

def beltLoop : List (List Char) → List (List Char) → List Inspection
  | [], _ => []
  | numStr :: ms, seen =>
    let title := strL "Belt Scraper System " ++ numStr
    if title ∈ seen then beltLoop ms seen
    else
      { name := title, description := none,
        tasks := actual_tasks.enum.map
          (fun p => mkLTask ((p.1 : Int) + 1) p.2) } ::
        beltLoop ms (seen ++ [title])

/-- `extract_belt_scraper_systems(text)`. -/
def extract_belt_scraper_systems (t : List Char) : List Inspection :=
  beltLoop (beltTitle2Matches t) []

/-! #### Strategy 1.5 — `extract_system_checklist_patterns` -/

/-- Class `[A-Za-z\s]` of the title pattern. -/
def isTitleClass (c : Char) : Bool := isAlphaB c || isWsB c

/-- Try to complete
`([A-Za-z\s]+system\s+\d+)(?:-Inspection\s+Checklist)?` with the class
run fixed to length `k ≥ 1`: `system` (IGNORECASE) at offset `k`,
whitespace, digits, then the optional suffix (consumed greedily when it
matches).  Returns the group-1 length and the rest after the match. -/
def sysPatAtK (cs : List Char) (k : Nat) : Option (Nat × List Char) :=
  let r := cs.drop k
  if startsWithCI (strL "system") r then
    let r2 := r.drop 6
    let w := r2.takeWhile isWsB
    if w.isEmpty then none
    else
      let r3 := r2.drop w.length
      let ds := r3.takeWhile isDigitB
      if ds.isEmpty then none
      else
        let r4 := r3.drop ds.length
        let g1len := k + 6 + w.length + ds.length
        let rest :=
          if r4.head? = some '-' ∧
             startsWithCI (strL "inspection") (r4.drop 1) then
            let r5 := r4.drop 11
            let w2 := r5.takeWhile isWsB
            if ¬ w2.isEmpty ∧
               startsWithCI (strL "checklist") (r5.drop w2.length) then
              r5.drop (w2.length + 9)
            else r4
          else r4
        some (g1len, rest)
  else none

/-- Greedy `[A-Za-z\s]+`: try the longest class run first, backtracking
one character at a time (at least one class character must precede
`system`). -/
def sysPatTry (cs : List Char) : Nat → Option (Nat × List Char)
  | 0 => none
  | k + 1 =>
    match sysPatAtK cs (k + 1) with
    | some res => some res
    | none => sysPatTry cs k

def matchSysPat (cs : List Char) : Option (List Char × List Char) :=
  match sysPatTry cs (cs.takeWhile isTitleClass).length with
  | some (g1len, rest) => some (cs.take g1len, rest)
  | none => none

def sysPatMatches (t : List Char) : List (List Char) :=
  scanAll matchSysPat t.length t

/-- `re.sub(r'\s+', ' ', s)`: collapse each whitespace run to one
space. -/
def collapseWsAux : Bool → List Char → List Char
  | _, [] => []
  | prevWs, c :: cs =>
    if isWsB c then
      if prevWs then collapseWsAux true cs
      else ' ' :: collapseWsAux true cs
    else c :: collapseWsAux false cs

def collapseWs (cs : List Char) : List Char := collapseWsAux false cs

/-- First-occurrence dedup preserving order (`dict` keyed by name). -/
def dedupKeys : List (List Char) → List (List Char) → List (List Char)
  | [], _ => []
  | x :: xs, seen =>
    if x ∈ seen then dedupKeys xs seen
    else x :: dedupKeys xs (seen ++ [x])

/-- `haystack.find(needle)` on lowercased operands (case-insensitive
index search); the pattern is supplied lowercased. -/
def findCIIdx (pat : List Char) : List Char → Option Nat
  | [] => if pat.isEmpty then some 0 else none
  | c :: cs =>
    if startsWithCI pat (c :: cs) then some 0
    else (findCIIdx pat cs).map (· + 1)

/-- Verbs of the section task patterns. -/
def verbs5 : List (List Char) :=
  [strL "check", strL "inspect", strL "verify", strL "test",
   strL "examine"]

/-- Matcher for
`r'(?i)(\d+)\s*[.\)]\s*(check|inspect|verify|test|examine)\s+([^.\n\r]+)'`.
Returns (digits, verb text, body) — the code only uses groups 0 and -1. -/
def matchSecTask1 (cs : List Char) :
    Option ((List Char × List Char × List Char) × List Char) :=
  let ds := cs.takeWhile isDigitB
  if ds.isEmpty then none
  else
    let r1 := cs.drop ds.length
    let r2 := r1.dropWhile isWsB
    match r2 with
    | [] => none
    | c :: r3 =>
      if c = '.' ∨ c = ')' then
        let r4 := r3.dropWhile isWsB
        match verbs5.find? (fun v => startsWithCI v r4) with
        | some v =>
          let verbText := r4.take v.length
          let r5 := r4.drop v.length
          match wsBacktrack notDotNl 1 1 r5.length r5 with
          | some (body, rest) => some ((ds, verbText, body), rest)
          | none => none
        | none => none
      else none

/-- Matcher for `r'(?i)(\d+)\s*[.\)]\s*([^.\n\r]{10,80})'`. -/
def matchSecTask2 (cs : List Char) :
    Option ((List Char × List Char) × List Char) :=
  let ds := cs.takeWhile isDigitB
  if ds.isEmpty then none
  else
    let r1 := cs.drop ds.length
    let r2 := r1.dropWhile isWsB
    match r2 with
    | [] => none
    | c :: r3 =>
      if c = '.' ∨ c = ')' then
        match wsBacktrack notDotNl 0 10 80 r3 with
        | some (body, rest) => some ((ds, body), rest)
        | none => none
      else none

/-- Matcher for
`r'(?i)(check|inspect|verify|test|examine)\s+([^.\n\r]{5,80})'`. -/
def matchSecTask3 (cs : List Char) :
    Option ((List Char × List Char) × List Char) :=
  match verbs5.find? (fun v => startsWithCI v cs) with
  | some v =>
    let verbText := cs.take v.length
    let r1 := cs.drop v.length
    match wsBacktrack notDotNl 1 5 80 r1 with
    | some (body, rest) => some ((verbText, body), rest)
    | none => none
  | none => none

/-- The skip words of the section task filter. -/
def skipWords : List (List Char) :=
  [strL "status", strL "date", strL "remarks", strL "signature"]

/-- Clean-up and filter of one candidate task (utils.py 425-432):
collapse whitespace, keep when 10 < len < 100 and no skip word occurs
(case-insensitively). -/
def secAppend (acc : List (Nat × List Char)) (num : Nat)
    (raw : List Char) : List (Nat × List Char) :=
  let desc := collapseWs (pyStrip raw)
  if 10 < desc.length ∧ desc.length < 100 ∧
     ¬ skipWords.any (fun w => containsCI w desc) then
    acc ++ [(num, desc)]
  else acc

/-- Tasks of one text section: the three patterns in order, appending
into one list; pattern 3 numbers its hits by the running list length. -/
def sectionTasks (sect : List Char) : List (Nat × List Char) :=
  let a1 := (scanAll matchSecTask1 sect.length sect).foldl
    (fun acc m => secAppend acc (digitsToNat m.1) m.2.2) []
  let a2 := (scanAll matchSecTask2 sect.length sect).foldl
    (fun acc m => secAppend acc (digitsToNat m.1) m.2) a1
  (scanAll matchSecTask3 sect.length sect).foldl
    (fun acc m => secAppend acc (acc.length + 1) (m.1 ++ [' '] ++ m.2)) a2

/-- Dedup by description after a stable sort by number, cap 10
(utils.py 434-442). -/
def dedupTasks :
    List (Nat × List Char) → List (List Char) → List (Nat × List Char)
  | [], _ => []
  | (n, d) :: ts, seen =>
    if d ∈ seen then dedupTasks ts seen
    else (n, d) :: dedupTasks ts (seen ++ [d])

def uniqueTasksOf (l : List (Nat × List Char)) : List (Nat × List Char) :=
  (dedupTasks (sortByNum l) []).take 10

/-- Per-system section slicing and task assignment (utils.py 393-442):
a system whose (cleaned) name cannot be re-found in the text keeps an
empty task list (`continue`); otherwise its section runs to the next
system's first occurrence after this one (or the end of text). -/
def syschkAssign (t : List Char) :
    List (List Char) → List (List Char × List (Nat × List Char))
  | [] => []
  | name :: restNames =>
    match findCIIdx (pyLower name) t with
    | none => (name, []) :: syschkAssign t restNames
    | some s =>
      let sect :=
        match restNames with
        | [] => t.drop s
        | next :: _ =>
          match (findCIIdx (pyLower next) (t.drop (s + 1))).map
              (· + (s + 1)) with
          | none => t.drop s
          | some e => (t.drop s).take (e - s)
      (name, uniqueTasksOf (sectionTasks sect)) :: syschkAssign t restNames

/-- `extract_system_checklist_patterns(text)`: systems that got no
tasks are discarded. -/
def extract_system_checklist_patterns (t : List Char) : List Inspection :=
  let names := dedupKeys
    ((sysPatMatches t).map (fun g => collapseWs (pyStrip g))) []
  (syschkAssign t names).filterMap (fun p =>
    if p.2.isEmpty then none
    else some
      { name := p.1 ++ strL "-Inspection Checklist",
        description := some (strL "Inspection checklist for " ++ p.1),
        tasks := p.2.map (fun q => mkLTask (q.1 : Int) q.2) })

/-! #### Strategy 2 — `extract_generic_systems` -/

def kwGeneric : List (List Char) :=
  [strL "equipment", strL "system", strL "component", strL "unit",
   strL "device"]

def kwGeneric2 : List (List Char) :=
  [strL "inspection", strL "checklist", strL "maintenance"]

/-- Greedy `\w+(?:\s+\w+)*` at the head of `cs`: total length consumed
and the remainder. -/
def wordChainAux : Nat → Nat → List Char → Nat
  | 0, acc, _ => acc
  | fuel + 1, acc, cs =>
    let w := cs.takeWhile isWsB
    if w.isEmpty then acc
    else
      let r := cs.drop w.length
      let d := r.takeWhile isWordB
      if d.isEmpty then acc
      else wordChainAux fuel (acc + w.length + d.length) (r.drop d.length)

def wordChain (cs : List Char) : Option (Nat × List Char) :=
  let d := cs.takeWhile isWordB
  if d.isEmpty then none
  else
    let len := wordChainAux cs.length d.length (cs.drop d.length)
    some (len, cs.drop len)

/-- The words of a maximal `\w+(?:\s+\w+)*` chain with their offsets
from the head of `cs`. -/
def chainWordsAux : Nat → Nat → List Char → List (Nat × List Char)
  | 0, _, _ => []
  | fuel + 1, pos, cs =>
    let d := cs.takeWhile isWordB
    if d.isEmpty then []
    else
      let r := cs.drop d.length
      let w := r.takeWhile isWsB
      if w.isEmpty then [(pos, d)]
      else
        let r2 := r.drop w.length
        if (r2.takeWhile isWordB).isEmpty then [(pos, d)]
        else (pos, d) :: chainWordsAux fuel (pos + d.length + w.length) r2

def chainWords (cs : List Char) : List (Nat × List Char) :=
  chainWordsAux cs.length 0 cs

/-- Matcher for `r'(?i)(keyword)\s+(\w+(?:\s+\w+)*)'` (pattern 1 of
`extract_generic_systems`, and the first half of pattern 3).  The
alternation's keywords have pairwise distinct initial letters, so at
most one alternative can match at a position. -/
def matchSp1 (cs : List Char) :
    Option ((List Char × List Char) × List Char) :=
  match kwGeneric.find? (fun k => startsWithCI k cs) with
  | none => none
  | some k =>
    let g1 := cs.take k.length
    let r := cs.drop k.length
    let w := r.takeWhile isWsB
    if w.isEmpty then none
    else
      match wordChain (r.drop w.length) with
      | none => none
      | some (len, rest) => some ((g1, (r.drop w.length).take len), rest)

/-- Matcher for `r'(?i)(\w+(?:\s+\w+)*)\s+(keyword)'` (patterns 2 and 4):
the greedy word chain backtracks from the end, so the match uses the
*last* chain word (index ≥ 1) that starts with a keyword; group 1 is
the chain up to the previous word, and the match ends inside that word
after the keyword. -/
def matchChainKw (kws : List (List Char)) (cs : List Char) :
    Option ((List Char × List Char) × List Char) :=
  let ws := chainWords cs
  if ws.isEmpty then none
  else
    let cands := ws.enum.filter
      (fun p => 1 ≤ p.1 ∧ kws.any (fun k => startsWithCI k p.2.2))
    match cands.getLast? with
    | none => none
    | some ip =>
      match kws.find? (fun k => startsWithCI k ip.2.2) with
      | none => none
      | some k =>
        match ws.get? (ip.1 - 1) with
        | none => none
        | some pp =>
          some ((cs.take (pp.1 + pp.2.length),
                 (cs.drop ip.2.1).take k.length),
            cs.drop (ip.2.1 + k.length))

/-- Matcher for
`r'(?i)(inspection|checklist|maintenance)\s+(?:for\s+)?(\w+(?:\s+\w+)*)'`
(pattern 3): the optional `for\s+` is consumed greedily when a word
chain still follows, otherwise dropped. -/
def matchSp3 (cs : List Char) :
    Option ((List Char × List Char) × List Char) :=
  match kwGeneric2.find? (fun k => startsWithCI k cs) with
  | none => none
  | some k =>
    let g1 := cs.take k.length
    let r := cs.drop k.length
    let w := r.takeWhile isWsB
    if w.isEmpty then none
    else
      let r2 := r.drop w.length
      let optLen : Option Nat :=
        if startsWithCI (strL "for") r2 then
          let r3 := r2.drop 3
          let w2 := r3.takeWhile isWsB
          if w2.isEmpty then none else some (3 + w2.length)
        else none
      match optLen with
      | some ol =>
        match wordChain (r2.drop ol) with
        | some (len, rest) => some ((g1, (r2.drop ol).take len), rest)
        | none =>
          match wordChain r2 with
          | some (len, rest) => some ((g1, r2.take len), rest)
          | none => none
      | none =>
        match wordChain r2 with
        | some (len, rest) => some ((g1, r2.take len), rest)
        | none => none

/-- Candidate system names: all four patterns in order; each pair is
joined with a space, stripped, length-filtered (exclusive 5..100) and
title-cased.  The source stores them in a Python `set` (unordered);
this embedding keeps first-seen order, which no claim depends on. -/
def genericNames (t : List Char) : List (List Char) :=
  let pairs :=
    scanAll matchSp1 t.length t ++
    scanAll (matchChainKw kwGeneric) t.length t ++
    scanAll matchSp3 t.length t ++
    scanAll (matchChainKw kwGeneric2) t.length t
  dedupKeys (pairs.filterMap (fun g =>
    let name := pyStrip (g.1 ++ [' '] ++ g.2)
    if 5 < name.length ∧ name.length < 100 then some (pyTitle name)
    else none)) []

/-- `re.finditer` with MULTILINE `^`-anchored patterns: a match may only
start where `^` holds (text start or just after a newline); scanning
resumes after each match. -/
def scanML {α : Type} (m : List Char → Option (α × List Char)) :
    Nat → Bool → List Char → List α
  | 0, _, _ => []
  | _ + 1, _, [] => []
  | fuel + 1, atStart, c :: cs =>
    if atStart then
      match m (c :: cs) with
      | some (a, rest) => a :: scanML m fuel false rest
      | none => scanML m fuel (c = '\n') cs
    else scanML m fuel (c = '\n') cs

/-- Matcher for `r'(?m)^\s*(\d+)[\.\)]\s*(.+)$'` at a line start (the
leading `\s*` may cross blank lines; the trailing `$` holds because the
`.+` run is maximal). -/
def matchGenNum (cs : List Char) :
    Option ((List Char × List Char) × List Char) :=
  let w := cs.takeWhile isWsB
  let r := cs.drop w.length
  let ds := r.takeWhile isDigitB
  if ds.isEmpty then none
  else
    let r2 := r.drop ds.length
    match r2 with
    | [] => none
    | c :: r3 =>
      if c = '.' ∨ c = ')' then
        match wsBacktrack notNl 0 1 r3.length r3 with
        | some (body, rest) => some ((ds, body), rest)
        | none => none
      else none

/-- Matcher for `r'(?m)^\s*[\-\*]\s*(.+)$'` at a line start. -/
def matchGenBullet (cs : List Char) : Option (List Char × List Char) :=
  let w := cs.takeWhile isWsB
  let r := cs.drop w.length
  match r with
  | [] => none
  | c :: r2 =>
    if c = '-' ∨ c = '*' then
      match wsBacktrack notNl 0 1 r2.length r2 with
      | some (body, rest) => some (body, rest)
      | none => none
    else none

/-- Matcher for `r'(?i)verb\s+(.+)'`. -/
def matchVerbDot (v : List Char) (cs : List Char) :
    Option (List Char × List Char) :=
  if startsWithCI v cs then
    let r := cs.drop v.length
    match wsBacktrack notNl 1 1 r.length r with
    | some (body, rest) => some (body, rest)
    | none => none
  else none

/-- One pattern's append loop (utils.py 554-569): strip, keep when
10 < len < 200, number by the running counter, stop this pattern once
the counter passes 20. -/
def genAppendLoop : List (List Char) → List (Nat × List Char) →
    List (Nat × List Char)
  | [], acc => acc
  | d :: ds, acc =>
    let desc := pyStrip d
    if 10 < desc.length ∧ desc.length < 200 then
      let acc2 := acc ++ [(acc.length + 1, desc)]
      if 20 ≤ acc2.length then acc2 else genAppendLoop ds acc2
    else genAppendLoop ds acc

/-- Candidate tasks from the six task patterns, in order. -/
def genTasks (t : List Char) : List (Nat × List Char) :=
  let a1 := genAppendLoop
    ((scanML matchGenNum t.length true t).map (fun m => m.2)) []
  let a2 := genAppendLoop (scanML matchGenBullet t.length true t) a1
  let a3 := genAppendLoop
    (scanAll (matchVerbDot (strL "check")) t.length t) a2
  let a4 := genAppendLoop
    (scanAll (matchVerbDot (strL "inspect")) t.length t) a3
  let a5 := genAppendLoop
    (scanAll (matchVerbDot (strL "verify")) t.length t) a4
  genAppendLoop (scanAll (matchVerbDot (strL "test")) t.length t) a5

/-- `extract_generic_systems(text)`: at most 5 systems, each assigned
the same first up-to-10 harvested tasks; systems with no tasks are
dropped. -/
def extract_generic_systems (t : List Char) : List Inspection :=
  let names := genericNames t
  let tasks := genTasks t
  (names.take 5).filterMap (fun nm =>
    let st := tasks.take (min tasks.length 10)
    if st.isEmpty then none
    else some { name := nm, description := none,
                tasks := st.map (fun q => mkLTask (q.1 : Int) q.2) })

/-! #### Strategy 3 — `extract_checklist_items` -/

def clPat1 : List (List Char) :=
  [strL "checklist", strL "inspection", strL "maintenance",
   strL "safety", strL "procedure"]

def clPat2 : List (List Char) :=
  [strL "equipment", strL "system", strL "component", strL "device",
   strL "machinery"]

def clPat3 : List (List Char) :=
  [strL "task", strL "item", strL "step", strL "check", strL "verify",
   strL "test", strL "inspect"]

/-- `re.search` of an alternation of literals: any substring hit. -/
def lineHasAny (kws : List (List Char)) (line : List Char) : Bool :=
  kws.any (fun k => containsCI k line)

/-- `re.match(r'^\d+[\.\)]\s*(.+)', line)` on a single (newline-free)
line: the captured group. -/
def matchNumLine (line : List Char) : Option (List Char) :=
  let ds := line.takeWhile isDigitB
  if ds.isEmpty then none
  else
    match line.drop ds.length with
    | [] => none
    | c :: r =>
      if c = '.' ∨ c = ')' then
        match wsBacktrack notNl 0 1 r.length r with
        | some (body, _) => some body
        | none => none
      else none

structure ClState where
  current : Option (List Char)
  tasks : List LTask
  num : Nat
  acc : List Inspection

/-- `if current_system and current_tasks: inspections.append(...)` —
the flush that runs when a new system opens and at end of text. -/
def flushSystem (st : ClState) : List Inspection :=
  match st.current with
  | some nm =>
    if ¬ st.tasks.isEmpty then
      st.acc ++ [{ name := nm, description := none, tasks := st.tasks }]
    else st.acc
  | none => st.acc

/-- One line of the `extract_checklist_items` scan. -/
def clStep (st : ClState) (rawLine : List Char) : ClState :=
  let line := pyStrip rawLine
  if line.isEmpty then st
  else if lineHasAny clPat1 line ∨ lineHasAny clPat2 line then
    if 10 < line.length ∧ line.length < 100 then
      { current := some (pyTitle line), tasks := [], num := 1,
        acc := flushSystem st }
    else st
  else if lineHasAny clPat3 line then
    if 15 < line.length ∧ line.length < 200 then
      { st with tasks := st.tasks ++ [mkLTask (st.num : Int) line],
                num := st.num + 1 }
    else st
  else
    match matchNumLine line with
    | some g =>
      if 10 < g.length then
        { st with tasks := st.tasks ++ [mkLTask (st.num : Int) g],
                  num := st.num + 1 }
      else st
    | none => st

/-- `extract_checklist_items(text)`. -/
def extract_checklist_items (t : List Char) : List Inspection :=
  flushSystem ((splitLines t).foldl clStep ⟨none, [], 1, []⟩)

/-! #### Strategy 4 — `create_intelligent_fallback` -/

/-- `create_intelligent_fallback(text)`: exactly one system with a
fixed 5-task template chosen by keyword presence. -/
def create_intelligent_fallback (t : List Char) : List Inspection :=
  if containsCI (strL "belt") t ∨ containsCI (strL "conveyor") t then
    [{ name := strL "Belt Conveyor Inspection", description := none,
       tasks :=
        [mkLTask 1 (strL "Check belt alignment and tracking"),
         mkLTask 2 (strL "Inspect belt condition for wear and damage"),
         mkLTask 3 (strL "Check belt tension and adjustment"),
         mkLTask 4 (strL "Inspect pulleys and rollers"),
         mkLTask 5 (strL "Check belt cleaners and scrapers")] }]
  else if containsCI (strL "electrical") t ∨ containsCI (strL "motor") t then
    [{ name := strL "Electrical Equipment Inspection", description := none,
       tasks :=
        [mkLTask 1 (strL "Check electrical connections and terminals"),
         mkLTask 2 (strL "Inspect motor condition and operation"),
         mkLTask 3 (strL "Test electrical safety systems"),
         mkLTask 4 (strL "Check control panel and switches"),
         mkLTask 5 (strL "Verify grounding and insulation")] }]
  else if containsCI (strL "pump") t ∨ containsCI (strL "hydraulic") t then
    [{ name := strL "Pump and Hydraulic System Inspection",
       description := none,
       tasks :=
        [mkLTask 1 (strL "Check pump operation and performance"),
         mkLTask 2 (strL "Inspect hydraulic lines and connections"),
         mkLTask 3 (strL "Check fluid levels and quality"),
         mkLTask 4 (strL "Test pressure relief valves"),
         mkLTask 5 (strL "Inspect seals and gaskets for leaks")] }]
  else
    [{ name := strL "Equipment Inspection Checklist", description := none,
       tasks :=
        [mkLTask 1 (strL "Visual inspection of equipment condition"),
         mkLTask 2 (strL "Check for any visible damage or wear"),
         mkLTask 3 (strL "Verify proper operation and functionality"),
         mkLTask 4 (strL "Check safety features and protective guards"),
         mkLTask 5 (strL "Document any issues or recommendations")] }]

/-! #### AI-to-legacy conversion and the extraction entry point -/

def taskTypeName : TaskType → List Char
  | TaskType.inspection => strL "inspection"
  | TaskType.maintenance => strL "maintenance"
  | TaskType.safety => strL "safety"
  | TaskType.startup => strL "startup"
  | TaskType.shutdown => strL "shutdown"

/-- `_convert_ai_result_to_legacy_format(ai_result)`: a pure reshaping
(`task.type or "inspection"` never sees `None` after validation, and an
empty-string type is impossible for the enum, so the `or` is the plain
value). -/
def _convert_ai_result_to_legacy_format (r : AIExtractionResult) :
    List Inspection :=
  r.systems.map (fun s =>
    { name := s.name,
      description := some (s.description.getD []),
      tasks := s.tasks.map (fun tk =>
        { number := tk.number,
          description := tk.description,
          type := some (taskTypeName tk.type),
          requirements := some (tk.requirements.getD []),
          safety_notes := some (tk.safety_notes.getD []) }) })

/-- A PDF file as the pipeline sees it: `corrupt` makes `fitz.open`
raise (covers corrupt and zero-byte files); `text t` is a readable file
whose pages concatenate (newline-joined) to `t`. -/
inductive PdfFile where
  | corrupt
  | text (t : List Char)
deriving DecidableEq

/-- `all_text` when PyMuPDF is unavailable (utils.py 181). -/
def fallbackUnavailableText : List Char :=
  strL "Fallback inspection data - PyMuPDF not available for text extraction"

/-- The ordered battery of legacy strategies (utils.py 183-228).
`extend`-if-non-empty equals unconditional append; strategies 2 and 3
(generic systems, checklist items) share one `if not inspections`
guard, so both run — and both contribute — whenever the first three
strategies found nothing and PyMuPDF is available. -/
def legacy_extraction_chain (pymupdf : Bool) (all_text : List Char) :
    List Inspection :=
  let i0 := extract_custom_user_systems all_text
  let i1 := if i0.isEmpty then i0 ++ extract_belt_scraper_systems all_text
            else i0
  let i2 := if i1.isEmpty then
              i1 ++ extract_system_checklist_patterns all_text
            else i1
  let i3 := if i2.isEmpty ∧ pymupdf then
              (i2 ++ extract_generic_systems all_text) ++
                extract_checklist_items all_text
            else i2
  if i3.isEmpty then i3 ++ create_intelligent_fallback all_text else i3

/-- The premium-AI attempt followed by the legacy path (utils.py
78-229): `ai = none` models `AI_PROCESSING_AVAILABLE = False`,
`some (Except.error ())` an AI call that raised (caught and logged),
`some (Except.ok r)` a returned result, accepted only when
`r.success and r.confidence > 0.3`. -/
def afterTextExtraction (pymupdf : Bool)
    (ai : Option (Except Unit AIExtractionResult))
    (legacyText : List Char) : List Inspection :=
  match ai with
  | some (Except.ok r) =>
    if r.success = true ∧ mkRat 3 10 < r.confidence then
      _convert_ai_result_to_legacy_format r
    else legacy_extraction_chain pymupdf legacyText
  | _ => legacy_extraction_chain pymupdf legacyText

/-- `extract_inspections_from_pdf(pdf_path)`: when PyMuPDF is
available, the text extraction at the top of the `try` block runs
first; on a corrupt file `fitz.open` raises, the `except` at the bottom
logs and **re-raises** (utils.py 231-233).  Without PyMuPDF the file is
never opened here and the legacy pass runs on the fixed fallback
string. -/
def extract_inspections_from_pdf (pymupdf : Bool)
    (ai : Option (Except Unit AIExtractionResult)) :
    PdfFile → Except (List Char) (List Inspection)
  | PdfFile.corrupt =>
    if pymupdf then
      Except.error (strL "Error extracting inspections from PDF")
    else Except.ok (afterTextExtraction false ai fallbackUnavailableText)
  | PdfFile.text t =>
    Except.ok (afterTextExtraction pymupdf ai
      (if pymupdf then t else fallbackUnavailableText))

/-- The fields of the `InspectionPDF` record that
`process_inspection_pdf` touches. -/
structure PdfRecord where
  processed : Bool
  processing_errors : Option (List Char)
deriving DecidableEq

/-- `process_inspection_pdf(inspection_pdf)` (utils.py 749-809): on a
normal extraction the record is saved with `processed = True` and the
call returns `True` (entity creation is a persistence-layer effect with
no bearing on the record's flags); when extraction raises, the `except`
block stores the human-readable message in `processing_errors`, leaves
`processed` untouched, and returns `False`. -/
def process_inspection_pdf (rec : PdfRecord) (pymupdf : Bool)
    (ai : Option (Except Unit AIExtractionResult)) (file : PdfFile) :
    Bool × PdfRecord :=
  match extract_inspections_from_pdf pymupdf ai file with
  | Except.ok _ => (true, { rec with processed := true })
  | Except.error e =>
    let msg := strL "Error processing PDF: " ++ e
    (false, { rec with processing_errors := some msg })

/-! #### Structural lemmas about the strategies -/

theorem insertByNum_length (x : Nat × List Char) (l : List (Nat × List Char)) :
    (insertByNum x l).length = l.length + 1 := by
  induction l with
  | nil => rfl
  | cons y ys ih =>
    simp only [insertByNum]
    by_cases h : y.1 ≤ x.1 <;> simp [h, ih]

theorem sortByNum_length (l : List (Nat × List Char)) :
    (sortByNum l).length = l.length := by
  have hgen : ∀ (l acc : List (Nat × List Char)),
      (l.foldl (fun acc x => insertByNum x acc) acc).length =
        acc.length + l.length := by
    intro l
    induction l with
    | nil => intro acc; simp
    | cons x xs ih =>
      intro acc
      simp only [List.foldl_cons]
      rw [ih (insertByNum x acc), insertByNum_length, List.length_cons]
      omega
  simpa using hgen l []

theorem take7_ne_nil {l : List LTask} (h : l ≠ []) : l.take 7 ≠ [] := by
  cases l with
  | nil => exact absurd rfl h
  | cons a as => simp

theorem finalTasksOf_ne_nil (t : List Char) : finalTasksOf t ≠ [] := by
  unfold finalTasksOf
  by_cases h : (extractedTasksOf t).isEmpty
  · simp [h, standard_tasks]
  · simp only [h, Bool.false_eq_true, if_false]
    have hne : extractedTasksOf t ≠ [] := by
      simpa [List.isEmpty_iff] using h
    intro hcon
    have hlen := congrArg List.length hcon
    simp only [List.length_map, List.enum_length, List.length_take,
      sortByNum_length, List.length_nil] at hlen
    rcases Nat.min_eq_zero_iff.mp hlen with h7 | hh
    · omega
    · exact hne (List.length_eq_zero.mp hh)

theorem customLoop_tasks (ft : List LTask) :
    ∀ (ms seen : List (List Char)) (i : Inspection),
      i ∈ customLoop ft ms seen → i.tasks = ft.take 7 := by
  intro ms
  induction ms with
  | nil => intro seen i hi; simp [customLoop] at hi
  | cons m ms ih =>
    intro seen i hi
    simp only [customLoop] at hi
    by_cases h : (strL "Belt Scraper system " ++ m ++
        strL "-Inspection Checklist") ∈ seen
    · rw [if_pos h] at hi
      exact ih _ i hi
    · rw [if_neg h] at hi
      rcases List.mem_cons.mp hi with h1 | h2
      · rw [h1]
      · exact ih _ i h2

theorem extract_custom_tasks_ne_nil (t : List Char) :
    ∀ i ∈ extract_custom_user_systems t, i.tasks ≠ [] := by
  intro i hi
  have htake : (finalTasksOf t).take 7 ≠ [] :=
    take7_ne_nil (finalTasksOf_ne_nil t)
  simp only [extract_custom_user_systems] at hi
  by_cases hemp :
      (customLoop (finalTasksOf t) (beltTitle1Matches t) []).isEmpty
  · rw [if_pos hemp] at hi
    by_cases hc : containsCI bciPhrase t = true
    · rw [if_pos hc] at hi
      rcases List.mem_map.mp hi with ⟨n, -, hmap⟩
      rw [← hmap]
      exact htake
    · rw [if_neg hc] at hi
      simp at hi
  · rw [if_neg hemp] at hi
    rw [customLoop_tasks (finalTasksOf t) _ _ i hi]
    exact htake

theorem beltLoop_tasks :
    ∀ (ms seen : List (List Char)) (i : Inspection),
      i ∈ beltLoop ms seen → i.tasks ≠ [] := by
  intro ms
  induction ms with
  | nil => intro seen i hi; simp [beltLoop] at hi
  | cons m ms ih =>
    intro seen i hi
    simp only [beltLoop] at hi
    by_cases h : (strL "Belt Scraper System " ++ m) ∈ seen
    · rw [if_pos h] at hi
      exact ih _ i hi
    · rw [if_neg h] at hi
      rcases List.mem_cons.mp hi with h1 | h2
      · rw [h1]; simp [actual_tasks, standard_tasks]
      · exact ih _ i h2

theorem extract_belt_tasks_ne_nil (t : List Char) :
    ∀ i ∈ extract_belt_scraper_systems t, i.tasks ≠ [] :=
  fun i hi => beltLoop_tasks _ _ i hi

theorem extract_syschk_tasks_ne_nil (t : List Char) :
    ∀ i ∈ extract_system_checklist_patterns t, i.tasks ≠ [] := by
  intro i hi
  simp only [extract_system_checklist_patterns] at hi
  rcases List.mem_filterMap.mp hi with ⟨p, -, hp⟩
  by_cases he : p.2.isEmpty
  · rw [if_pos he] at hp
    simp at hp
  · rw [if_neg he] at hp
    injection hp with hpe
    rw [← hpe]
    simp only
    intro hc
    exact he (by simp [List.map_eq_nil_iff.mp hc])

theorem extract_generic_tasks_ne_nil (t : List Char) :
    ∀ i ∈ extract_generic_systems t, i.tasks ≠ [] := by
  intro i hi
  simp only [extract_generic_systems] at hi
  rcases List.mem_filterMap.mp hi with ⟨nm, -, hp⟩
  by_cases he : ((genTasks t).take (min (genTasks t).length 10)).isEmpty
  · rw [if_pos he] at hp
    simp at hp
  · rw [if_neg he] at hp
    injection hp with hpe
    rw [← hpe]
    simp only
    intro hc
    exact he (by simp [List.map_eq_nil_iff.mp hc])

theorem flushSystem_tasks (st : ClState)
    (h : ∀ i ∈ st.acc, i.tasks ≠ []) :
    ∀ i ∈ flushSystem st, i.tasks ≠ [] := by
  intro i hi
  unfold flushSystem at hi
  split at hi
  · split at hi
    · rcases List.mem_append.mp hi with h1 | h2
      · exact h i h1
      · rename_i hne
        rw [List.mem_singleton.mp h2]
        simpa [List.isEmpty_iff] using hne
    · exact h i hi
  · exact h i hi

theorem clStep_acc_tasks (st : ClState) (line : List Char)
    (h : ∀ i ∈ st.acc, i.tasks ≠ []) :
    ∀ i ∈ (clStep st line).acc, i.tasks ≠ [] := by
  intro i hi
  simp only [clStep] at hi
  repeat' split at hi
  all_goals
    first
      | exact h i hi
      | exact flushSystem_tasks st h i hi

theorem foldl_clStep_acc (lines : List (List Char)) :
    ∀ st : ClState, (∀ i ∈ st.acc, i.tasks ≠ []) →
      ∀ i ∈ (lines.foldl clStep st).acc, i.tasks ≠ [] := by
  induction lines with
  | nil => intro st h; exact h
  | cons l ls ih =>
    intro st h
    exact ih (clStep st l) (clStep_acc_tasks st l h)

theorem extract_checklist_tasks_ne_nil (t : List Char) :
    ∀ i ∈ extract_checklist_items t, i.tasks ≠ [] := by
  intro i hi
  simp only [extract_checklist_items] at hi
  exact flushSystem_tasks _
    (foldl_clStep_acc (splitLines t) ⟨none, [], 1, []⟩
      (by intro j hj; simp at hj)) i hi

theorem singletonInspection {nm : List Char} {ts : List LTask}
    (hts : ts ≠ []) :
    ([{ name := nm, description := none, tasks := ts }] :
        List Inspection) ≠ [] ∧
    ∀ i ∈ ([{ name := nm, description := none, tasks := ts }] :
        List Inspection), i.tasks ≠ [] := by
  refine ⟨by simp, ?_⟩
  intro i hi
  rw [List.mem_singleton.mp hi]
  exact hts

theorem create_intelligent_fallback_spec (t : List Char) :
    create_intelligent_fallback t ≠ [] ∧
      ∀ i ∈ create_intelligent_fallback t, i.tasks ≠ [] := by
  unfold create_intelligent_fallback
  split
  · exact singletonInspection (by simp)
  · split
    · exact singletonInspection (by simp)
    · split
      · exact singletonInspection (by simp)
      · exact singletonInspection (by simp)

/-- The heuristic chain always yields at least one system and every
produced system carries at least one task. -/
theorem legacy_chain_spec (pymupdf : Bool) (t : List Char) :
    legacy_extraction_chain pymupdf t ≠ [] ∧
      ∀ i ∈ legacy_extraction_chain pymupdf t, i.tasks ≠ [] := by
  by_cases h0 : extract_custom_user_systems t = []
  · by_cases h1 : extract_belt_scraper_systems t = []
    · by_cases h2 : extract_system_checklist_patterns t = []
      · by_cases h3 : pymupdf = true
        · subst h3
          by_cases h4 : extract_generic_systems t ++
              extract_checklist_items t = []
          · have hch : legacy_extraction_chain true t =
                create_intelligent_fallback t := by
              simp [legacy_extraction_chain, h0, h1, h2, h4,
                List.append_eq_nil.mp h4]
            rw [hch]
            exact create_intelligent_fallback_spec t
          · have hch : legacy_extraction_chain true t =
                extract_generic_systems t ++ extract_checklist_items t := by
              simp [legacy_extraction_chain, h0, h1, h2, h4]
            rw [hch]
            refine ⟨h4, ?_⟩
            intro i hi
            rcases List.mem_append.mp hi with h | h
            · exact extract_generic_tasks_ne_nil t i h
            · exact extract_checklist_tasks_ne_nil t i h
        · have h3f : pymupdf = false := by
            cases pymupdf
            · rfl
            · exact absurd rfl h3
          subst h3f
          have hch : legacy_extraction_chain false t =
              create_intelligent_fallback t := by
            simp [legacy_extraction_chain, h0, h1, h2]
          rw [hch]
          exact create_intelligent_fallback_spec t
      · have hch : legacy_extraction_chain pymupdf t =
            extract_system_checklist_patterns t := by
          simp [legacy_extraction_chain, h0, h1, h2]
        rw [hch]
        exact ⟨h2, extract_syschk_tasks_ne_nil t⟩
    · have hch : legacy_extraction_chain pymupdf t =
          extract_belt_scraper_systems t := by
        simp [legacy_extraction_chain, h0, h1]
      rw [hch]
      exact ⟨h1, extract_belt_tasks_ne_nil t⟩
  · have hch : legacy_extraction_chain pymupdf t =
        extract_custom_user_systems t := by
      simp [legacy_extraction_chain, h0]
    rw [hch]
    exact ⟨h0, extract_custom_tasks_ne_nil t⟩

/-! ### Claim C1 — non-empty guarantee and exceptions -/

/-- C1 counterexample: for a corrupt (or zero-byte) file with PyMuPDF
available, `fitz.open` raises inside the `try`, the except block at
utils.py 231-233 logs and **re-raises**, so the caller receives an
exception, not a fallback result — contradicting "never raises an
exception to the caller". -/
theorem C1_counterexample :
    extract_inspections_from_pdf true none PdfFile.corrupt =
      Except.error (strL "Error extracting inspections from PDF") := rfl

/-- C1 amended: whenever the initial text extraction does not raise
(the file is readable, or PyMuPDF is unavailable so the file is never
opened here), the pipeline returns at least one system and every system
has at least one task; a raising `fitz.open` propagates to the caller.
The AI hypothesis states what `process_pdf_with_ai` guarantees: its
results come from `validate_ai_response` or `create_fallback_result`,
both of which yield non-empty systems with non-empty task lists. -/
theorem C1_amended_nonempty (pymupdf : Bool)
    (ai : Option (Except Unit AIExtractionResult)) (file : PdfFile)
    (hai : ∀ r, ai = some (Except.ok r) →
      r.systems ≠ [] ∧ ∀ s ∈ r.systems, s.tasks ≠ [])
    (hfile : pymupdf = true → file ≠ PdfFile.corrupt) :
    ∃ l, extract_inspections_from_pdf pymupdf ai file = Except.ok l ∧
      l ≠ [] ∧ ∀ i ∈ l, i.tasks ≠ [] := by
  have hafter : ∀ (pm : Bool) (txt : List Char),
      afterTextExtraction pm ai txt ≠ [] ∧
        ∀ i ∈ afterTextExtraction pm ai txt, i.tasks ≠ [] := by
    intro pm txt
    cases hA : ai with
    | none => exact legacy_chain_spec pm txt
    | some e =>
      cases e with
      | error u => exact legacy_chain_spec pm txt
      | ok r =>
        show (if r.success = true ∧ mkRat 3 10 < r.confidence then
            _convert_ai_result_to_legacy_format r
          else legacy_extraction_chain pm txt) ≠ [] ∧
          ∀ i ∈ (if r.success = true ∧ mkRat 3 10 < r.confidence then
            _convert_ai_result_to_legacy_format r
          else legacy_extraction_chain pm txt), i.tasks ≠ []
        by_cases hg : r.success = true ∧ mkRat 3 10 < r.confidence
        · rw [if_pos hg]
          rcases hai r hA with ⟨hsys, htasks⟩
          constructor
          · simpa [_convert_ai_result_to_legacy_format] using hsys
          · intro i hi
            rcases List.mem_map.mp hi with ⟨s, hs, hmap⟩
            rw [← hmap]
            simp only
            intro hc
            exact htasks s hs (List.map_eq_nil_iff.mp hc)
        · rw [if_neg hg]
          exact legacy_chain_spec pm txt
  cases file with
  | corrupt =>
    cases pymupdf with
    | true => exact absurd rfl (hfile rfl)
    | false =>
      exact ⟨afterTextExtraction false ai fallbackUnavailableText, rfl,
        hafter false fallbackUnavailableText⟩
  | text t =>
    exact ⟨afterTextExtraction pymupdf ai
        (if pymupdf then t else fallbackUnavailableText), rfl,
      hafter pymupdf _⟩

/-- C1 witness: empty extracted text, no AI, PyMuPDF available — the
pipeline still returns a non-empty result with non-empty tasks. -/
theorem C1_witness :
    ∃ l, extract_inspections_from_pdf true none (PdfFile.text []) =
        Except.ok l ∧ l ≠ [] ∧ ∀ i ∈ l, i.tasks ≠ [] :=
  C1_amended_nonempty true none (PdfFile.text [])
    (by intro r h; simp at h) (by intro h hc; simp at hc)

/-! ### Claim C5 — strategy short-circuiting -/

def tC5 : List Char :=
  strL "Equipment Pump\n1. Check the main drive motor alignment\n"

/-- C5 counterexample: on this text every strategy before the generic
matcher finds nothing, the generic matcher (strategy 4 in chain order)
produces a non-empty result — and the checklist-items strategy still
runs and appends its own system, because both sit inside one
`if not inspections` block (utils.py 206-220).  The final list is
strictly longer than the generic strategy's output, so a later strategy
contributed systems after an earlier one succeeded. -/
theorem C5_counterexample :
    extract_custom_user_systems tC5 = [] ∧
    extract_belt_scraper_systems tC5 = [] ∧
    extract_system_checklist_patterns tC5 = [] ∧
    extract_generic_systems tC5 ≠ [] ∧
    extract_checklist_items tC5 ≠ [] ∧
    legacy_extraction_chain true tC5 =
      extract_generic_systems tC5 ++ extract_checklist_items tC5 ∧
    (extract_generic_systems tC5).length <
      (legacy_extraction_chain true tC5).length := by
  refine ⟨?_, ?_, ?_, ?_, ?_, ?_, ?_⟩ <;> decide

/-- C5 amended: the chain short-circuits after each of the first three
strategies (custom format, belt-scraper, system-checklist), but the
generic-systems and checklist-items strategies share one guard: when
the first three fail and PyMuPDF is available, **both** run and both
contribute, falling back to the intelligent synthesizer only when their
combined output is empty. -/
theorem C5_amended_short_circuit (pymupdf : Bool) (t : List Char) :
    (extract_custom_user_systems t ≠ [] →
      legacy_extraction_chain pymupdf t = extract_custom_user_systems t) ∧
    (extract_custom_user_systems t = [] →
      extract_belt_scraper_systems t ≠ [] →
      legacy_extraction_chain pymupdf t = extract_belt_scraper_systems t) ∧
    (extract_custom_user_systems t = [] →
      extract_belt_scraper_systems t = [] →
      extract_system_checklist_patterns t ≠ [] →
      legacy_extraction_chain pymupdf t =
        extract_system_checklist_patterns t) ∧
    (extract_custom_user_systems t = [] →
      extract_belt_scraper_systems t = [] →
      extract_system_checklist_patterns t = [] → pymupdf = true →
      legacy_extraction_chain pymupdf t =
        (if (extract_generic_systems t ++
             extract_checklist_items t).isEmpty then
          create_intelligent_fallback t
        else extract_generic_systems t ++ extract_checklist_items t)) := by
  refine ⟨?_, ?_, ?_, ?_⟩
  · intro h0
    simp [legacy_extraction_chain, h0]
  · intro h0 h1
    simp [legacy_extraction_chain, h0, h1]
  · intro h0 h1 h2
    simp [legacy_extraction_chain, h0, h1, h2]
  · intro h0 h1 h2 h3
    subst h3
    by_cases h4 : extract_generic_systems t ++ extract_checklist_items t = []
    · simp [legacy_extraction_chain, h0, h1, h2, h4,
        List.append_eq_nil.mp h4]
    · simp [legacy_extraction_chain, h0, h1, h2, h4, List.isEmpty_iff]

/-- C5 witness: the amended behavior at the counterexample text. -/
theorem C5_witness :
    legacy_extraction_chain true tC5 =
      (if (extract_generic_systems tC5 ++
           extract_checklist_items tC5).isEmpty then
        create_intelligent_fallback tC5
      else extract_generic_systems tC5 ++ extract_checklist_items tC5) :=
  (C5_amended_short_circuit true tC5).2.2.2 (by decide) (by decide)
    (by decide) rfl

/-! ### Claim C8 — marking documents processed -/

/-- C8 counterexample: one run of `process_inspection_pdf` on a corrupt
file (extraction raises): the call returns `False`, records the
human-readable error, and leaves `processed = False` — the document
*is* left unprocessed by an extraction failure, contradicting "always
marked processed". -/
theorem C8_counterexample :
    process_inspection_pdf ⟨false, none⟩ true none PdfFile.corrupt =
      (false, ⟨false, some (strL "Error processing PDF: " ++
        strL "Error extracting inspections from PDF")⟩) := rfl

/-- C8 amended: the record is marked processed exactly when extraction
returns normally (whatever the quality); when extraction raises, the
error text is recorded in `processing_errors` and `processed` is left
unchanged (so a previously unprocessed document stays unprocessed). -/
theorem C8_amended_processed (rec : PdfRecord) (pymupdf : Bool)
    (ai : Option (Except Unit AIExtractionResult)) (file : PdfFile) :
    (∀ l, extract_inspections_from_pdf pymupdf ai file = Except.ok l →
      process_inspection_pdf rec pymupdf ai file =
        (true, { rec with processed := true })) ∧
    (∀ e, extract_inspections_from_pdf pymupdf ai file = Except.error e →
      process_inspection_pdf rec pymupdf ai file =
        (false, { rec with
          processing_errors := some (strL "Error processing PDF: " ++ e) })) := by
  constructor
  · intro l hl
    unfold process_inspection_pdf
    rw [hl]
  · intro e he
    unfold process_inspection_pdf
    rw [he]

/-- C8 witness: a successful run marks the record processed. -/
theorem C8_witness :
    process_inspection_pdf ⟨false, none⟩ true none (PdfFile.text []) =
      (true, { processed := true, processing_errors := none }) :=
  (C8_amended_processed ⟨false, none⟩ true none (PdfFile.text [])).1 _ rfl

/-! ### Claim C10 — Belt Conveyor Inspection synthesis -/

/-- C10: when no "Belt Scraper system N-Inspection Checklist" title
matches but "Belt Conveyor Inspection" occurs k ≥ 1 times
(case-insensitively, non-overlapping), strategy 0 synthesizes exactly
min(k, 10) systems named "Belt Scraper system i-Inspection Checklist"
for i = 1..min(k, 10), all sharing the same task list of at most 7
tasks. -/
theorem C10_bci_synthesis (t : List Char) (k : Nat)
    (hm : beltTitle1Matches t = [])
    (hcount : countOccCI bciPhrase t = k) (hk : 1 ≤ k) :
    extract_custom_user_systems t =
      (List.range' 1 (min k 10)).map (fun i =>
        { name := strL "Belt Scraper system " ++ Nat.toDigits 10 i ++
            strL "-Inspection Checklist",
          description := none,
          tasks := (finalTasksOf t).take 7 }) ∧
    ((finalTasksOf t).take 7).length ≤ 7 := by
  have hcontains : containsCI bciPhrase t = true :=
    contains_of_countOccCI_pos bciPhrase t (by rw [hcount]; omega)
  constructor
  · simp only [extract_custom_user_systems, hm, customLoop,
      List.isEmpty_nil, if_true, hcontains, hcount]
    rw [Nat.max_eq_right hk]
  · rw [List.length_take]
    omega

def tC10 : List Char :=
  strL "Belt Conveyor Inspection\nBelt Conveyor Inspection\n"

/-- C10 witness: a text with two occurrences of the phrase and no title
matches yields exactly two synthesized systems. -/
theorem C10_witness :
    extract_custom_user_systems tC10 =
      (List.range' 1 (min 2 10)).map (fun i =>
        { name := strL "Belt Scraper system " ++ Nat.toDigits 10 i ++
            strL "-Inspection Checklist",
          description := none,
          tasks := (finalTasksOf tC10).take 7 }) ∧
    ((finalTasksOf tC10).take 7).length ≤ 7 :=
  C10_bci_synthesis tC10 2 (by decide) (by decide) (by decide)
